import Mathlib

/-!
# Verification of the `best-ai-atribuicao-ingestao` pipeline

Shallow embedding, in Lean 4, of the core functions of the repository:

* `chunk_text` (both the newline-snapping version of `make_kb_jsonl_atribuicao.py`
  and the plain version of `make_kb_jsonl_atribuicao_1712_1815.py`),
* the metadata extractors of `make_kb_jsonl_atribuicao.py`
  (`infer_conhecimento`, `guess_norma_tipo`, `guess_orgao_emissor`,
  `guess_ano_letivo`, `guess_fase_processo`, `guess_programa`,
  `guess_publico_alvo`, `guess_prazos`, `guess_data_publicacao`,
  `extract_referencias_legais`),
* the identifier encoding, `build_docs` and the batched embed-and-upload loop
  of `ingest_embeddings_azure_search_atribuicao.py`.

Python strings are modelled as `List Char` (Python indexes strings by code
point), bytes as `Nat` (with explicit `< 256` bounds), Python `int` as `Int`
or `Nat` where the context guarantees non-negativity, and `None`-able values
as `Option`.  The `while` loop of `chunk_text` is modelled with explicit fuel,
returning `none` exactly when the fuel is exhausted (the Python loop would
still be running); all of the theorems below that concern the loop's output
are conditioned on, or prove, a `some` result.

The file is organised with all definitions first and all theorems second.
-/

namespace Ingestao

/-! ## Python string primitives -/

/-- Python whitespace for `str.strip()` / `\s` on the characters that occur in
this pipeline's data (ASCII whitespace; Python additionally strips some rare
Unicode space characters, which never appear in the patterns or defaults of the
source and do not affect any claim). -/
def isPySpace (c : Char) : Bool :=
  c = ' ' || c = '\t' || c = '\n' || c = '\r' || c = '\x0b' || c = '\x0c'

/-- Python `str.strip()`. -/
def pyStrip (l : List Char) : List Char :=
  ((l.dropWhile isPySpace).reverse.dropWhile isPySpace).reverse

/-- Python `text[i:j]` for `0 ≤ i ≤ j` (both ends clamped to the length). -/
def pySlice (l : List Char) (i j : Nat) : List Char :=
  (l.drop i).take (j - i)

/-- Index of the first `'\n'` of a list (`none` if there is none). -/
def findNL : List Char → Option Nat
  | [] => none
  | c :: cs => if c = '\n' then some 0 else (findNL cs).map (· + 1)

/-- Python `text.find("\n", j)`: absolute index of the first newline at
position `≥ j`, as an `Option` instead of `-1`. -/
def pyFindNLFrom (l : List Char) (j : Nat) : Option Nat :=
  (findNL (l.drop j)).map (j + ·)

/-! ## `chunk_text`

Source, `make_kb_jsonl_atribuicao.py`, lines 105–135 (the `snap := true`
instance below; `window end` is `j`):

```python
def chunk_text(text, target_chars=1500, overlap=200):
    text = (text or "").strip()
    if not text: return []
    chunks = []; i = 0; N = len(text)
    if target_chars <= 0: return [text]
    if overlap < 0: overlap = 0
    while i < N:
        j = min(N, i + target_chars)
        if j < N:
            next_newline = text.find("\n", j)
            if next_newline != -1 and (next_newline - j) < 150: j = next_newline + 1
        chunk = text[i:j]
        chunks.append(chunk.strip())
        if j >= N: break
        i = j - overlap if overlap > 0 else j
        if i < 0: i = 0
    return [c for c in chunks if c]
```

`make_kb_jsonl_atribuicao_1712_1815.py`, lines 76–97, is identical except that
the three `next_newline` lines are absent (`snap := false`).  Sizes are taken
as `Nat`: the sources clamp `overlap < 0` to `0` and send `target_chars ≤ 0`
to the `[text]` branch, so non-negative parameters are exhaustive; `target_chars
= 0` plays the role of Python's `target_chars <= 0`.  `i = j - overlap` followed
by the clamp `if i < 0: i = 0` is exactly truncated subtraction `j - overlap`
on `Nat`, and `j - overlap if overlap > 0 else j` equals `j - overlap` in both
cases. -/

/-- The window end `j` computed by one iteration of the `chunk_text` loop
starting at cursor `i` (with, for `snap = true`, the newline lookahead);
`min text.length (i + target)` is the `j = min(N, i + target_chars)` of the
source. -/
def windowEnd (snap : Bool) (text : List Char) (target i : Nat) : Nat :=
  if snap then
    if min text.length (i + target) < text.length then
      match pyFindNLFrom text (min text.length (i + target)) with
      | some nn =>
        if nn - min text.length (i + target) < 150 then nn + 1
        else min text.length (i + target)
      | none => min text.length (i + target)
    else min text.length (i + target)
  else min text.length (i + target)

/-- The `while i < N` loop of `chunk_text`, with fuel; `none` means the fuel
ran out (the Python loop has not terminated yet). -/
def chunkLoop (snap : Bool) (text : List Char) (target overlap : Nat) :
    Nat → Nat → Option (List (List Char))
  | 0, _ => none
  | fuel + 1, i =>
    if i < text.length then
      let j := windowEnd snap text target i
      let c := pyStrip (pySlice text i j)
      if text.length ≤ j then
        some [c]
      else
        match chunkLoop snap text target overlap fuel (j - overlap) with
        | some rest => some (c :: rest)
        | none => none
    else some []

/-- `chunk_text` of `make_kb_jsonl_atribuicao.py` (newline snapping). -/
def chunk_text (text : List Char) (target_chars overlap : Nat) :
    Option (List (List Char)) :=
  let t := pyStrip text
  if t.isEmpty then some []
  else if target_chars = 0 then some [t]
  else (chunkLoop true t target_chars overlap (t.length + 1) 0).map
    (List.filter (fun c => !c.isEmpty))

/-- `chunk_text` of `make_kb_jsonl_atribuicao_1712_1815.py` (no snapping). -/
def chunk_text_1712 (text : List Char) (target_chars overlap : Nat) :
    Option (List (List Char)) :=
  let t := pyStrip text
  if t.isEmpty then some []
  else if target_chars = 0 then some [t]
  else (chunkLoop false t target_chars overlap (t.length + 1) 0).map
    (List.filter (fun c => !c.isEmpty))

/-- The same loop as `chunkLoop`, recording the raw windows `(i, j)` instead of
the stripped slices. -/
def chunkWindows (snap : Bool) (text : List Char) (target overlap : Nat) :
    Nat → Nat → Option (List (Nat × Nat))
  | 0, _ => none
  | fuel + 1, i =>
    if i < text.length then
      let j := windowEnd snap text target i
      if text.length ≤ j then
        some [(i, j)]
      else
        match chunkWindows snap text target overlap fuel (j - overlap) with
        | some rest => some ((i, j) :: rest)
        | none => none
    else some []

/-- The successive cursor/window-end pairs produced by the `chunk_text` loop,
as an inductive chain. -/
inductive WinChain (snap : Bool) (text : List Char) (target overlap : Nat) :
    Nat → List (Nat × Nat) → Prop
  | nil {i : Nat} (h : text.length ≤ i) : WinChain snap text target overlap i []
  | last {i : Nat} (h : i < text.length)
      (hj : text.length ≤ windowEnd snap text target i) :
      WinChain snap text target overlap i [(i, windowEnd snap text target i)]
  | cons {i : Nat} {r : List (Nat × Nat)} (h : i < text.length)
      (hj : windowEnd snap text target i < text.length)
      (hr : WinChain snap text target overlap (windowEnd snap text target i - overlap) r) :
      WinChain snap text target overlap i ((i, windowEnd snap text target i) :: r)

/-- Concatenation of the raw window slices after the first, with the first
`overlap` characters (the overlapped region) of each removed. -/
def joinTail (text : List Char) (overlap : Nat) : List (Nat × Nat) → List Char
  | [] => []
  | w :: rest => (pySlice text w.1 w.2).drop overlap ++ joinTail text overlap rest

/-- The original text, rebuilt from the raw windows of the loop: the first
window in full, every later window with its overlapped prefix removed. -/
def reconstruct (text : List Char) (overlap : Nat) : List (Nat × Nat) → List Char
  | [] => []
  | w :: rest => pySlice text w.1 w.2 ++ joinTail text overlap rest

/-- Consecutive elements all satisfy `P`. -/
def Consecutive (P : α → α → Prop) : List α → Prop
  | [] => True
  | [_] => True
  | a :: b :: rest => P a b ∧ Consecutive P (b :: rest)

/-- The raw overlap relation between two consecutive windows: the last
`overlap` characters of the first window are the first `overlap` characters
of the next one. -/
def OverlapRel (text : List Char) (overlap : Nat) (w1 w2 : Nat × Nat) : Prop :=
  (pySlice text w1.1 w1.2).drop (w1.2 - w1.1 - overlap) =
    (pySlice text w2.1 w2.2).take overlap

/-! ## Identifier encoding

Source, `ingest_embeddings_azure_search_atribuicao.py`, line 216:

```python
sid = base64.urlsafe_b64encode(raw_id.encode('utf-8')).decode('ascii').rstrip("=")
```

`utf8EncodeChar`/`utf8Encode` model `str.encode('utf-8')` (bytes as `Nat`),
`b64EncodeN` turns a byte list into the base64 sextet list (without the `'='`
padding, which `rstrip("=")` removes again: the sextet characters produced by
the URL-safe alphabet are never `'='`), and `b64Char`/`b64Val` are the URL-safe
alphabet and its inverse.  `decode_id` re-adds the padding (`padB64`), drops
the padding characters, decodes sextets to bytes and the bytes back to a
string, as the spec's `decode` describes. -/

/-- UTF-8 encoding of one Unicode scalar value (as Python's
`str.encode('utf-8')` produces for each code point). -/
def utf8EncodeChar (c : Char) : List Nat :=
  if c.toNat < 128 then [c.toNat]
  else if c.toNat < 2048 then
    [192 + c.toNat / 64, 128 + c.toNat % 64]
  else if c.toNat < 65536 then
    [224 + c.toNat / 4096, 128 + c.toNat / 64 % 64, 128 + c.toNat % 64]
  else
    [240 + c.toNat / 262144, 128 + c.toNat / 4096 % 64,
      128 + c.toNat / 64 % 64, 128 + c.toNat % 64]

/-- `str.encode('utf-8')`: byte list of a string (given as its code points). -/
def utf8Encode (s : List Char) : List Nat :=
  s.flatMap utf8EncodeChar

/-- Continuation of a 2-byte UTF-8 sequence whose first byte is `b`. -/
def utf8Dec2 (b : Nat) : List Nat → Option (Nat × List Nat)
  | b2 :: rest => some ((b - 192) * 64 + (b2 - 128), rest)
  | [] => none

/-- Continuation of a 3-byte UTF-8 sequence whose first byte is `b`. -/
def utf8Dec3 (b : Nat) : List Nat → Option (Nat × List Nat)
  | b2 :: b3 :: rest =>
    some ((b - 224) * 4096 + (b2 - 128) * 64 + (b3 - 128), rest)
  | _ => none

/-- Continuation of a 4-byte UTF-8 sequence whose first byte is `b`. -/
def utf8Dec4 (b : Nat) : List Nat → Option (Nat × List Nat)
  | b2 :: b3 :: b4 :: rest =>
    some ((b - 240) * 262144 + (b2 - 128) * 4096 + (b3 - 128) * 64 + (b4 - 128),
      rest)
  | _ => none

/-- Decode one UTF-8 sequence from the front of a byte list: the code point
and the remaining bytes (sequence lengths as in RFC 3629). -/
def utf8DecodeOne : List Nat → Option (Nat × List Nat)
  | [] => none
  | b :: bs =>
    if b < 128 then some (b, bs)
    else if b < 224 then utf8Dec2 b bs
    else if b < 240 then utf8Dec3 b bs
    else utf8Dec4 b bs

/-- Decode a whole byte list into code points, with fuel (each sequence
consumes at least one byte, so `l.length` fuel always suffices). -/
def utf8DecodeFuel : Nat → List Nat → Option (List Nat)
  | _, [] => some []
  | 0, _ :: _ => none
  | fuel + 1, b :: bs =>
    match utf8DecodeOne (b :: bs) with
    | some x => (utf8DecodeFuel fuel x.2).map (x.1 :: ·)
    | none => none

/-- UTF-8 decoding of a byte list into code points (`bytes.decode('utf-8')`;
enough structure to decode everything `utf8Encode` produces). -/
def utf8Decode (l : List Nat) : Option (List Nat) :=
  utf8DecodeFuel l.length l

/-- The URL-safe base64 alphabet (`A–Z`, `a–z`, `0–9`, `-`, `_`). -/
def b64Char (n : Nat) : Char :=
  if n < 26 then Char.ofNat (65 + n)
  else if n < 52 then Char.ofNat (97 + (n - 26))
  else if n < 62 then Char.ofNat (48 + (n - 52))
  else if n = 62 then '-'
  else '_'

/-- Inverse of the URL-safe base64 alphabet. -/
def b64Val (c : Char) : Nat :=
  if 'A' ≤ c ∧ c ≤ 'Z' then c.toNat - 65
  else if 'a' ≤ c ∧ c ≤ 'z' then c.toNat - 97 + 26
  else if '0' ≤ c ∧ c ≤ '9' then c.toNat - 48 + 52
  else if c = '-' then 62
  else 63

/-- Bytes to base64 sextets, three bytes to four sextets, final group
truncated (the sextets of `base64.urlsafe_b64encode` with the `'='` padding
already stripped). -/
def b64EncodeN : List Nat → List Nat
  | [] => []
  | [a] => [a / 4, a % 4 * 16]
  | [a, b] => [a / 4, a % 4 * 16 + b / 16, b % 16 * 4]
  | a :: b :: c :: rest =>
    a / 4 :: (a % 4 * 16 + b / 16) :: (b % 16 * 4 + c / 64) :: c % 64 ::
      b64EncodeN rest

/-- Base64 sextets back to bytes (a trailing group of 2 or 3 sextets encodes
1 or 2 bytes; a trailing single sextet cannot arise from an encoding). -/
def b64DecodeN : List Nat → List Nat
  | s1 :: s2 :: s3 :: s4 :: rest =>
    (s1 * 4 + s2 / 16) :: (s2 % 16 * 16 + s3 / 4) :: (s3 % 4 * 64 + s4) ::
      b64DecodeN rest
  | [s1, s2] => [s1 * 4 + s2 / 16]
  | [s1, s2, s3] => [s1 * 4 + s2 / 16, s2 % 16 * 16 + s3 / 4]
  | _ => []

/-- Re-add the stripped base64 padding: append `'='` up to a multiple of 4. -/
def padB64 (s : List Char) : List Char :=
  s ++ List.replicate ((4 - s.length % 4) % 4) '='

/-- The identifier encoding of `build_docs`:
`base64.urlsafe_b64encode(raw_id.encode('utf-8')).decode('ascii').rstrip("=")`. -/
def encode_id (s : String) : String :=
  String.mk ((b64EncodeN (utf8Encode s.data)).map b64Char)

/-- Decoding an encoded identifier: re-add the padding, drop the padding
characters, decode base64 sextets to bytes and UTF-8 bytes to a string
(`none` when the bytes are not a valid encoding). -/
def decode_id (s : String) : Option String :=
  (utf8Decode (b64DecodeN (((padB64 s.data).filter (fun c => c ≠ '=')).map b64Val))).bind
    (fun cps =>
      if cps.all (fun n => decide n.isValidChar) then
        some (String.mk (cps.map Char.ofNat))
      else none)

/-! ## Metadata extractors

Source: `make_kb_jsonl_atribuicao.py`, lines 221–376.  Substring tests
(`"x" in s`), prefix tests (`startswith`) and the regexes `YEAR_RE`,
`DATE_BR_RE`, the `guess_prazos` range pattern, the written-out date pattern
of `guess_data_publicacao`, `fase\s*(\d+)` and the three `referencias_legais`
citation patterns are embedded below.  Alternatives of a regex (`[0-3]?\d`,
the optional `(?:/(\d{4}))?`) are tried in the engine's backtracking order;
greedy runs (`\s+`, `[a-zç]+`, `\w+`, `\d+`) that are followed by a token from
a disjoint character class are taken maximally, which coincides with the
engine's behaviour. -/

/-- Python `str.lower()` on the character sets that occur here (ASCII plus the
Latin-1 letters `À`–`Þ`; the remaining special cases of Unicode lowercasing
never meet the patterns of the source). -/
def pyLower (c : Char) : Char :=
  if 'A' ≤ c ∧ c ≤ 'Z' then Char.ofNat (c.toNat + 32)
  else if 192 ≤ c.toNat ∧ c.toNat ≤ 222 ∧ c.toNat ≠ 215 then Char.ofNat (c.toNat + 32)
  else c

/-- Python `str.upper()` on the same character sets (`à`–`þ` map down). -/
def pyUpper (c : Char) : Char :=
  if 'a' ≤ c ∧ c ≤ 'z' then Char.ofNat (c.toNat - 32)
  else if 224 ≤ c.toNat ∧ c.toNat ≤ 254 ∧ c.toNat ≠ 247 then Char.ofNat (c.toNat - 32)
  else c

/-- `s.lower()`. -/
def lowerStr (l : List Char) : List Char := l.map pyLower

/-- `s.upper()`. -/
def upperStr (l : List Char) : List Char := l.map pyUpper

/-- Python `needle in hay`. -/
def isSubstr (needle hay : List Char) : Bool :=
  hay.tails.any (needle.isPrefixOf ·)

/-- `infer_conhecimento` (lines 225–236): filename-prefix rules first, then
in-name keyword rules, in source order; the `for` chain is unrolled. -/
def infer_conhecimento (file_name : List Char) : String :=
  let fn := upperStr (pyStrip file_name)
  if ("AT".data).isPrefixOf fn then "Atribuição de Classes (AC)"
  else if ("AC".data).isPrefixOf fn then "Atribuição de Classes (AC)"
  else if ("AD".data).isPrefixOf fn then "Avaliação de Desempenho (AD)"
  else if ("CP".data).isPrefixOf fn then "Confirmação de Participação (CP)"
  else if ("PEI".data).isPrefixOf fn then "Programa Ensino Integral (PEI)"
  else if isSubstr "ATRIBUI".data fn then "Atribuição de Classes (AC)"
  else if isSubstr "AVALIACA".data fn || isSubstr "DESEMPENHO".data fn then
    "Avaliação de Desempenho (AD)"
  else if isSubstr "CONFIRMACAO".data fn && isSubstr "PARTICIPACAO".data fn then
    "Confirmação de Participação (CP)"
  else if isSubstr "ENSINO INTEGRAL".data fn then "Programa Ensino Integral (PEI)"
  else "Geral"

/-- `guess_norma_tipo` (lines 251–260): `s = f"{fname}\n{text}".lower()`. -/
def guess_norma_tipo (text fname : List Char) : String :=
  let s := lowerStr (fname ++ '\n' :: text)
  if isSubstr "portaria conjunta".data s then "Portaria Conjunta"
  else if isSubstr "portaria".data s then "Portaria"
  else if isSubstr "resolução".data s || isSubstr "resolucao".data s then "Resolução"
  else if isSubstr "comunicado".data s then "Comunicado"
  else if isSubstr "informação".data s || isSubstr "informacao".data s then "Informação"
  else if isSubstr "decreto".data s then "Decreto"
  else if isSubstr "lei complementar".data s then "Lei Complementar"
  else ""

/-- `guess_orgao_emissor` (lines 263–269); the `for k in (...)` loop is
unrolled in its tuple order. -/
def guess_orgao_emissor (text : List Char) : String :=
  let s := upperStr text
  if isSubstr "SUCOR".data s && isSubstr "SUPED".data s then "SUCOR/SUPED"
  else if isSubstr "CGRH".data s then "CGRH"
  else if isSubstr "DIPES".data s then "DIPES"
  else if isSubstr "SUCOR".data s then "SUCOR"
  else if isSubstr "SUPED".data s then "SUPED"
  else if isSubstr "SEDUC".data s then "SEDUC"
  else ""

/-! ### Regex building blocks -/

/-- `\d`. -/
def isDigitCh (c : Char) : Bool := '0' ≤ c && c ≤ '9'

/-- `\w` (ASCII letters, digits, `_`, and the Latin-1 letters — Python's
word class is Unicode-aware; this covers every character the pipeline's
patterns can meet). -/
def isWordCh (c : Char) : Bool :=
  ('a' ≤ c && c ≤ 'z') || ('A' ≤ c && c ≤ 'Z') || isDigitCh c || c = '_' ||
    (192 ≤ c.toNat && c.toNat ≤ 255 && c.toNat ≠ 215 && c.toNat ≠ 247)

/-- `\b` before position `p` (a word character is about to start at `p`). -/
def wordBoundaryAt (l : List Char) (p : Nat) : Bool :=
  match p with
  | 0 => true
  | q + 1 =>
    match l.get? q with
    | some c => !isWordCh c
    | none => true

/-- `\b` after a word character ending just before `p` (no word character at
`p`). -/
def nonWordAfter (l : List Char) (p : Nat) : Bool :=
  match l.get? p with
  | some c => !isWordCh c
  | none => true

/-- Two digits at `p`, the first in the range `lo`–`hi` (e.g. `[0-3]\d`). -/
def digit2At (l : List Char) (p : Nat) (lo hi : Char) : Option (Nat × Nat) :=
  match l.get? p, l.get? (p + 1) with
  | some c0, some c1 =>
    if (lo ≤ c0 && c0 ≤ hi) && isDigitCh c1 then
      some ((c0.toNat - 48) * 10 + (c1.toNat - 48), p + 2)
    else none
  | _, _ => none

/-- One digit at `p`. -/
def digit1At (l : List Char) (p : Nat) : Option (Nat × Nat) :=
  match l.get? p with
  | some c0 => if isDigitCh c0 then some (c0.toNat - 48, p + 1) else none
  | none => none

/-- `20[2-4]\d` at `p` (the year group of `YEAR_RE` and `DATE_BR_RE`). -/
def year24At (l : List Char) (p : Nat) : Option Nat :=
  match l.get? p, l.get? (p + 1), l.get? (p + 2), l.get? (p + 3) with
  | some c0, some c1, some c2, some c3 =>
    if c0 = '2' && c1 = '0' && ('2' ≤ c2 && c2 ≤ '4') && isDigitCh c3 then
      some (2000 + (c2.toNat - 48) * 10 + (c3.toNat - 48))
    else none
  | _, _, _, _ => none

/-- `20\d{2}` at `p`. -/
def year20At (l : List Char) (p : Nat) : Option Nat :=
  match l.get? p, l.get? (p + 1), l.get? (p + 2), l.get? (p + 3) with
  | some c0, some c1, some c2, some c3 =>
    if c0 = '2' && c1 = '0' && isDigitCh c2 && isDigitCh c3 then
      some (2000 + (c2.toNat - 48) * 10 + (c3.toNat - 48))
    else none
  | _, _, _, _ => none

/-- `YEAR_RE = \b(20[2-4]\d)\b` at `p`: value and end position. -/
def matchYearAt (l : List Char) (p : Nat) : Option (Nat × Nat) :=
  match year24At l p with
  | some y =>
    if wordBoundaryAt l p && nonWordAfter l (p + 4) then some (y, p + 4) else none
  | none => none

/-- `re.findall` / `re.finditer`: scan left to right, non-overlapping, with
fuel (`l.length + 1` always suffices: the position advances each step). -/
def scanAll (matchAt : Nat → Option (α × Nat)) : Nat → Nat → List α
  | 0, _ => []
  | fuel + 1, p =>
    match matchAt p with
    | some x => x.1 :: scanAll matchAt fuel (max x.2 (p + 1))
    | none => scanAll matchAt fuel (p + 1)

/-- `re.search`: the match at the leftmost matching position. -/
def searchFirst (matchAt : Nat → Option α) : Nat → Nat → Option α
  | 0, _ => none
  | fuel + 1, p =>
    match matchAt p with
    | some x => some x
    | none => searchFirst matchAt fuel (p + 1)

/-- `re.findall(YEAR_RE, l)`, as year values. -/
def yearFindAll (l : List Char) : List Nat :=
  scanAll (matchYearAt l) (l.length + 1) 0

/-- Python `max` of a list of years (all entries are positive). -/
def maxNat (l : List Nat) : Nat := l.foldl max 0

/-- `guess_ano_letivo` (lines 272–279): a year in the filename wins, else the
maximum year in the body (`str(max(map(int, ys)))` — the `int` conversions of
regex-captured years cannot fail, so the `except` branch is dead). -/
def guess_ano_letivo (text fname : List Char) : String :=
  let ysf := yearFindAll fname
  if !ysf.isEmpty then toString (ysf.headD 0)
  else
    let yst := yearFindAll text
    if !yst.isEmpty then toString (maxNat yst)
    else ""

/-- The nested pattern `fase\s*(\d+)` at `p` (on the lowered text): the digit
group. -/
def matchFaseNumAt (l : List Char) (p : Nat) : Option (List Char) :=
  if ("fase".data).isPrefixOf (l.drop p) then
    let rest := (l.drop (p + 4)).dropWhile isPySpace
    let digits := rest.takeWhile isDigitCh
    if digits.isEmpty then none else some digits
  else none

/-- `guess_fase_processo` (lines 282–304): ordered keyword checks on
`f"{fname}\n{text}".lower()`, with sub-variants and the nested
`fase\s*(\d+)` extraction. -/
def guess_fase_processo (text fname : List Char) : String :=
  let sLow := lowerStr (fname ++ '\n' :: text)
  if isSubstr "conferência de dados".data sLow ||
      isSubstr "conferencia de dados".data sLow then "Conferência de Dados"
  else if isSubstr "credenciamento".data sLow then "Credenciamento"
  else if isSubstr "alocação".data sLow || isSubstr "alocacao".data sLow then
    (if isSubstr "inicial".data sLow then "Alocação Inicial" else "Alocação")
  else if isSubstr "realocação".data sLow || isSubstr "realocacao".data sLow then
    "Realocação"
  else if isSubstr "transferência".data sLow ||
      isSubstr "transferencia".data sLow then
    (if isSubstr "pei".data sLow then "Transferência PEI" else "Transferência")
  else if isSubstr "confirmação de participação".data sLow ||
      isSubstr "confirmacao de participacao".data sLow then
    (match searchFirst (matchFaseNumAt sLow) (sLow.length + 1) 0 with
     | some ds => "Confirmação de Participação – Fase " ++ String.mk ds
     | none => "Confirmação de Participação")
  else if isSubstr "classificação".data sLow || isSubstr "classificacao".data sLow then
    "Classificação"
  else if isSubstr "inscrição".data sLow || isSubstr "inscricao".data sLow then
    "Inscrição"
  else if isSubstr "avaliação de desempenho".data sLow ||
      isSubstr "avaliacao de desempenho".data sLow then
    (if isSubstr "final".data sLow then "Avaliação de Desempenho Final"
     else if isSubstr "parcial".data sLow then "Avaliação de Desempenho Parcial"
     else "Avaliação de Desempenho")
  else ""

/-- `guess_programa` (lines 307–314). -/
def guess_programa (text : List Char) : String :=
  let s := lowerStr text
  if isSubstr "programa ensino integral".data s || isSubstr " pei ".data s ||
      isSubstr "no pei".data s then "PEI"
  else if isSubstr "ensino integral".data s then "PEI"
  else if isSubstr "tempo parcial".data s then "Tempo Parcial"
  else if isSubstr "eja".data s then "EJA"
  else if isSubstr "ensino técnico".data s || isSubstr "novotec".data s then
    "Ensino Técnico / Novotec"
  else ""

/-- Code-point lexicographic order on strings (Python's `sorted` order). -/
def lexLe : List Char → List Char → Bool
  | [], _ => true
  | _ :: _, [] => false
  | a :: as, b :: bs =>
    if a.toNat < b.toNat then true
    else if b.toNat < a.toNat then false
    else lexLe as bs

/-- Insertion into a lexicographically sorted list. -/
def insertLex (x : String) : List String → List String
  | [] => [x]
  | y :: ys => if lexLe x.data y.data then x :: y :: ys else y :: insertLex x ys

/-- Python `sorted` on strings (insertion sort by code point). -/
def sortLex (l : List String) : List String := l.foldr insertLex []

/-- `guess_publico_alvo` (lines 317–326): accumulate audience tags, fall back
to `"PEI"`/`"Geral"`, else `", ".join(sorted(set(targets)))`. -/
def guess_publico_alvo (text : List Char) : String :=
  let s := lowerStr text
  let targets :=
    (if isSubstr "docente".data s || isSubstr "professor".data s then
      ["Docentes"] else []) ++
    (if isSubstr "diretor".data s || isSubstr "gestor".data s ||
        isSubstr "coordenador".data s then ["Gestores"] else []) ++
    (if isSubstr "candidato".data s || isSubstr "contratado".data s then
      ["Candidatos/Contratados"] else [])
  if targets.isEmpty then
    if isSubstr "pei".data s then "PEI" else "Geral"
  else
    String.intercalate ", " (sortLex targets.dedup)

/-- `[/.-]`, the separators of `DATE_BR_RE`. -/
def isDateSep (c : Char) : Bool := c = '/' || c = '.' || c = '-'

/-- Separator at position `p`. -/
def sepAt (l : List Char) (p : Nat) : Bool :=
  match l.get? p with
  | some c => isDateSep c
  | none => false

/-- The `[/.-]20[2-4]\d\b` tail of `DATE_BR_RE` after a month value `m`
ending at `r`. -/
def dateTail2 (l : List Char) (d m r : Nat) : Option ((Nat × Nat × Nat) × Nat) :=
  if sepAt l r then
    match year24At l (r + 1) with
    | some y => if nonWordAfter l (r + 5) then some ((d, m, y), r + 5) else none
    | none => none
  else none

/-- The `[/.-]([01]?\d)[/.-]20[2-4]\d\b` tail of `DATE_BR_RE` after a day
value `d` ending at `q` (two-digit month tried before one-digit, as the
engine backtracks). -/
def dateTail (l : List Char) (d q : Nat) : Option ((Nat × Nat × Nat) × Nat) :=
  if sepAt l q then
    match
      (match digit2At l (q + 1) '0' '1' with
       | some x => dateTail2 l d x.1 x.2
       | none => none) with
    | some v => some v
    | none =>
      match digit1At l (q + 1) with
      | some x => dateTail2 l d x.1 x.2
      | none => none
  else none

/-- `DATE_BR_RE = \b([0-3]?\d)[/.-]([01]?\d)[/.-](20[2-4]\d)\b` at `p`:
`((day, month, year), end)` (two-digit day tried before one-digit). -/
def matchDateBrAt (l : List Char) (p : Nat) : Option ((Nat × Nat × Nat) × Nat) :=
  if wordBoundaryAt l p then
    match digit2At l p '0' '3' with
    | some x =>
      match dateTail l x.1 x.2 with
      | some v => some v
      | none => (digit1At l p).bind (fun y => dateTail l y.1 y.2)
    | none => (digit1At l p).bind (fun y => dateTail l y.1 y.2)
  else none

/-- `re.findall(DATE_BR_RE, l)` as `(day, month, year)` triples. -/
def dateBrFindAll (l : List Char) : List (Nat × Nat × Nat) :=
  scanAll (matchDateBrAt l) (l.length + 1) 0

/-- `to_iso_date` (lines 243–248): `f"{yy:04d}-{mm:02d}-{dd:02d}"` (the
`int()` conversions of regex-captured digits cannot fail, so the `except`
branch is dead). -/
def pad2 (n : Nat) : String := if n < 10 then "0" ++ toString n else toString n

/-- Zero-padding to four digits. -/
def pad4 (n : Nat) : String :=
  if n < 10 then "000" ++ toString n
  else if n < 100 then "00" ++ toString n
  else if n < 1000 then "0" ++ toString n
  else toString n

/-- `to_iso_date(d, m, y)`. -/
def to_iso_date (d m y : Nat) : String :=
  pad4 y ++ "-" ++ pad2 m ++ "-" ++ pad2 d

/-- `\s+` from `p`: end of a non-empty maximal whitespace run (always exact
here: every following token starts with a non-whitespace character). -/
def wsRun1 (l : List Char) (p : Nat) : Option Nat :=
  let q := p + ((l.drop p).takeWhile isPySpace).length
  if p < q then some q else none

/-- Case-insensitive literal at `p` (`lit` given lower-case). -/
def litCiAt (l : List Char) (p : Nat) (lit : List Char) : Bool :=
  lowerStr ((l.drop p).take lit.length) = lit

/-- `[a-zç]` with `re.I`. -/
def isMonthNameChar (c : Char) : Bool :=
  ('a' ≤ c && c ≤ 'z') || ('A' ≤ c && c ≤ 'Z') || c = 'ç' || c = 'Ç'

/-- Tail `\s+de\s+([a-zç]+)\s+de\s+(20\d{2})` of the written-out date pattern
after the day digits ending at `q`: `(day, month name, year)`. -/
def extDateTail (l : List Char) (dia q : Nat) : Option (Nat × List Char × Nat) :=
  (wsRun1 l q).bind fun q1 =>
  if litCiAt l q1 "de".data then
    (wsRun1 l (q1 + 2)).bind fun q2 =>
    let mes := (l.drop q2).takeWhile isMonthNameChar
    if mes.isEmpty then none
    else
      (wsRun1 l (q2 + mes.length)).bind fun q3 =>
      if litCiAt l q3 "de".data then
        (wsRun1 l (q3 + 2)).bind fun q4 =>
        (year20At l q4).map fun y => (dia, mes, y)
      else none
  else none

/-- `(\d{1,2})\s+de\s+([a-zç]+)\s+de\s+(20\d{2})` (with `re.I`) at `p`. -/
def matchExtDateAt (l : List Char) (p : Nat) : Option (Nat × List Char × Nat) :=
  match digit2At l p '0' '9' with
  | some x =>
    match extDateTail l x.1 x.2 with
    | some v => some v
    | none => (digit1At l p).bind (fun y => extDateTail l y.1 y.2)
  | none => (digit1At l p).bind (fun y => extDateTail l y.1 y.2)

/-- The `MESES` month-name table (line 351). -/
def mesNum (mes : List Char) : Option String :=
  let m := lowerStr mes
  if m = "janeiro".data then some "01"
  else if m = "fevereiro".data then some "02"
  else if m = "março".data then some "03"
  else if m = "abril".data then some "04"
  else if m = "maio".data then some "05"
  else if m = "junho".data then some "06"
  else if m = "julho".data then some "07"
  else if m = "agosto".data then some "08"
  else if m = "setembro".data then some "09"
  else if m = "outubro".data then some "10"
  else if m = "novembro".data then some "11"
  else if m = "dezembro".data then some "12"
  else none

/-- `guess_data_publicacao` (lines 354–362): first `DATE_BR_RE` match, else
the first written-out date whose month name is in `MESES`
(`f"{ano}-{mes_num}-{int(dia):02d}"`). -/
def guess_data_publicacao (text : List Char) : String :=
  match searchFirst (matchDateBrAt text) (text.length + 1) 0 with
  | some x => to_iso_date x.1.1 x.1.2.1 x.1.2.2
  | none =>
    match searchFirst (matchExtDateAt text) (text.length + 1) 0 with
    | some x =>
      match mesNum x.2.1 with
      | some mn => toString x.2.2 ++ "-" ++ mn ++ "-" ++ pad2 x.1
      | none => ""
    | none => ""

/-- `(?:/(\d{4}))?` at `q`: year value and end, when present. -/
def optYearAt (l : List Char) (q : Nat) : Option (Nat × Nat) :=
  match l.get? q with
  | some c =>
    if c = '/' then
      match l.get? (q + 1), l.get? (q + 2), l.get? (q + 3), l.get? (q + 4) with
      | some a, some b, some c2, some d =>
        if isDigitCh a && isDigitCh b && isDigitCh c2 && isDigitCh d then
          some ((a.toNat - 48) * 1000 + (b.toNat - 48) * 100 +
            (c2.toNat - 48) * 10 + (d.toNat - 48), q + 5)
        else none
      | _, _, _, _ => none
    else none
  | none => none

/-- Parses of `[0-3]?\d` at `p` in backtracking order (two digits, then one). -/
def dayCands (l : List Char) (p : Nat) : List (Nat × Nat) :=
  (match digit2At l p '0' '3' with | some x => [x] | none => []) ++
  (match digit1At l p with | some x => [x] | none => [])

/-- Parses of `[01]?\d` at `p` in backtracking order. -/
def monthCands (l : List Char) (p : Nat) : List (Nat × Nat) :=
  (match digit2At l p '0' '1' with | some x => [x] | none => []) ++
  (match digit1At l p with | some x => [x] | none => [])

/-- Parses of `[0-3]?\d/[01]?\d` at `p`: `(day, month, end)`, in backtracking
order. -/
def slashDateCands (l : List Char) (p : Nat) : List (Nat × Nat × Nat) :=
  (dayCands l p).flatMap fun d =>
    match l.get? d.2 with
    | some c =>
      if c = '/' then (monthCands l (d.2 + 1)).map (fun m => (d.1, m.1, m.2))
      else []
    | none => []

/-- Parses of `([0-3]?\d/[01]?\d)(?:/(\d{4}))?` at `p`:
`((day, month, optional year), end)`, in backtracking order (with the greedy
optional year first). -/
def dateYearCands (l : List Char) (p : Nat) :
    List ((Nat × Nat × Option Nat) × Nat) :=
  (slashDateCands l p).flatMap fun dm =>
    (match optYearAt l dm.2.2 with
     | some y => [((dm.1, dm.2.1, some y.1), y.2)]
     | none => []) ++ [((dm.1, dm.2.1, none), dm.2.2)]

/-- The `guess_prazos` range pattern
`de\s+([0-3]?\d/[01]?\d)(?:/(\d{4}))?\s+a\s+([0-3]?\d/[01]?\d)(?:/(\d{4}))?`
(with `re.I`) at `p`: `(d1, m1, y1, d2, m2, y2)`. -/
def matchPrazoAt (l : List Char) (p : Nat) :
    Option (Nat × Nat × Option Nat × Nat × Nat × Option Nat) :=
  if litCiAt l p "de".data then
    (wsRun1 l (p + 2)).bind fun q =>
    ((dateYearCands l q).filterMap fun d1 =>
      (wsRun1 l d1.2).bind fun r1 =>
      if litCiAt l r1 "a".data then
        (wsRun1 l (r1 + 1)).bind fun r2 =>
        ((dateYearCands l r2).map fun d2 =>
          (d1.1.1, d1.1.2.1, d1.1.2.2, d2.1.1, d2.1.2.1, d2.1.2.2)).head?
      else none).head?
  else none

/-- `guess_prazos` (lines 329–348): the natural-language range pattern first
(with the year hint `y1 or y2 or` the first `YEAR_RE` year of the text — a
match with no year yields `("", "")`), else the first two `DATE_BR_RE` dates. -/
def guess_prazos (text : List Char) : String × String :=
  match searchFirst (matchPrazoAt text) (text.length + 1) 0 with
  | some x =>
    let yearHint : Option Nat :=
      match x.2.2.1 with
      | some y => some y
      | none =>
        match x.2.2.2.2.2 with
        | some y => some y
        | none => (yearFindAll text).head?
    match yearHint with
    | some y => (to_iso_date x.1 x.2.1 y, to_iso_date x.2.2.2.1 x.2.2.2.2.1 y)
    | none => ("", "")
  | none =>
    match dateBrFindAll text with
    | a :: b :: _ => (to_iso_date a.1 a.2.1 a.2.2, to_iso_date b.1 b.2.1 b.2.2)
    | _ => ("", "")

/-- `20[1-4]\d` at `p` (year of the resolution/portaria citation patterns). -/
def yearP12At (l : List Char) (p : Nat) : Bool :=
  match l.get? p, l.get? (p + 1), l.get? (p + 2), l.get? (p + 3) with
  | some c0, some c1, some c2, some c3 =>
    c0 = '2' && c1 = '0' && ('1' ≤ c2 && c2 ≤ '4') && isDigitCh c3
  | _, _, _, _ => false

/-- `(20\d{2}|19\d{2})` at `p` (year of the complementary-law pattern). -/
def yearP3At (l : List Char) (p : Nat) : Bool :=
  match l.get? p, l.get? (p + 1), l.get? (p + 2), l.get? (p + 3) with
  | some c0, some c1, some c2, some c3 =>
    ((c0 = '2' && c1 = '0') || (c0 = '1' && c1 = '9')) &&
      isDigitCh c2 && isDigitCh c3
  | _, _, _, _ => false

/-- `\b(\d{1,4})\/(year)` at `e`: end of the whole tail (one to four digits,
then `/` and a four-digit year; longer digit runs cannot back off, because a
shorter take leaves a digit where `/` is required). -/
def refNumYearAt (l : List Char) (yearAt : List Char → Nat → Bool) (e : Nat) :
    Option Nat :=
  if wordBoundaryAt l e then
    let run := ((l.drop e).takeWhile isDigitCh).length
    if 1 ≤ run && run ≤ 4 then
      match l.get? (e + run) with
      | some c =>
        if c = '/' && yearAt l (e + run + 1) then some (e + run + 5) else none
      | none => none
    else none
  else none

/-- The lazy gap `.*?` of the citation patterns: advance over non-newline
characters to the first position where the number/year tail matches. -/
def refGapScan (l : List Char) (check : Nat → Option Nat) :
    Nat → Nat → Option Nat
  | 0, _ => none
  | fuel + 1, e =>
    match check e with
    | some endv => some endv
    | none =>
      match l.get? e with
      | some c => if c = '\n' then none else refGapScan l check fuel (e + 1)
      | none => none

/-- One citation pattern `(<lit>\w*?.*?)\b(\d{1,4})\/(year)` at `p` (with
`re.I`); `needW` is the extra `\w+` of the `Resolu\w+` pattern.  Returns
`(group 0, end)`. -/
def matchRefLitAt (l : List Char) (lit : List Char) (needW : Bool)
    (yearAt : List Char → Nat → Bool) (p : Nat) : Option (List Char × Nat) :=
  if litCiAt l p lit then
    if needW then
      match l.get? (p + lit.length) with
      | some c =>
        if isWordCh c then
          (refGapScan l (refNumYearAt l yearAt) (l.length + 1)
              (p + lit.length + 1)).map
            (fun endv => (pySlice l p endv, endv))
        else none
      | none => none
    else
      (refGapScan l (refNumYearAt l yearAt) (l.length + 1) (p + lit.length)).map
        (fun endv => (pySlice l p endv, endv))
  else none

/-- `re.finditer(r"(Resolu\w+.*?)\b(\d{1,4})\/(20[1-4]\d)", text, re.I)`. -/
def refsScan1 (l : List Char) : List (List Char) :=
  scanAll (matchRefLitAt l "resolu".data true yearP12At) (l.length + 1) 0

/-- `re.finditer(r"(Portaria.*?)\b(\d{1,4})\/(20[1-4]\d)", text, re.I)`. -/
def refsScan2 (l : List Char) : List (List Char) :=
  scanAll (matchRefLitAt l "portaria".data false yearP12At) (l.length + 1) 0

/-- `re.finditer(r"(Lei Complementar.*?)\b(\d{1,4})\/(20\d{2}|19\d{2})", text, re.I)`. -/
def refsScan3 (l : List Char) : List (List Char) :=
  scanAll (matchRefLitAt l "lei complementar".data false yearP3At) (l.length + 1) 0

/-- `extract_referencias_legais` (lines 365–376): the three scans, each match
stripped and length-filtered into a set, returned sorted. -/
def extract_referencias_legais (text : List Char) : List String :=
  let cands := (refsScan1 text ++ refsScan2 text ++ refsScan3 text).map pyStrip
  let kept := cands.filter (fun c => 6 ≤ c.length && c.length ≤ 140)
  sortLex ((kept.map String.mk).dedup)

/-! ### "Some rule fired" predicates (the disjunction of each extractor's
rule conditions, used to state the no-match hypothesis of the metadata
default claim) -/

/-- Some rule of `infer_conhecimento` fires. -/
def conhecimento_hit (file_name : List Char) : Bool :=
  let fn := upperStr (pyStrip file_name)
  ("AT".data).isPrefixOf fn || ("AC".data).isPrefixOf fn ||
  ("AD".data).isPrefixOf fn || ("CP".data).isPrefixOf fn ||
  ("PEI".data).isPrefixOf fn || isSubstr "ATRIBUI".data fn ||
  isSubstr "AVALIACA".data fn || isSubstr "DESEMPENHO".data fn ||
  (isSubstr "CONFIRMACAO".data fn && isSubstr "PARTICIPACAO".data fn) ||
  isSubstr "ENSINO INTEGRAL".data fn

/-- Some rule of `guess_norma_tipo` fires. -/
def norma_hit (text fname : List Char) : Bool :=
  let s := lowerStr (fname ++ '\n' :: text)
  isSubstr "portaria conjunta".data s || isSubstr "portaria".data s ||
  isSubstr "resolução".data s || isSubstr "resolucao".data s ||
  isSubstr "comunicado".data s || isSubstr "informação".data s ||
  isSubstr "informacao".data s || isSubstr "decreto".data s ||
  isSubstr "lei complementar".data s

/-- Some rule of `guess_orgao_emissor` fires. -/
def orgao_hit (text : List Char) : Bool :=
  let s := upperStr text
  isSubstr "CGRH".data s || isSubstr "DIPES".data s ||
  isSubstr "SUCOR".data s || isSubstr "SUPED".data s || isSubstr "SEDUC".data s

/-- Some rule of `guess_ano_letivo` fires. -/
def ano_hit (text fname : List Char) : Bool :=
  !(yearFindAll fname).isEmpty || !(yearFindAll text).isEmpty

/-- Some rule of `guess_fase_processo` fires. -/
def fase_hit (text fname : List Char) : Bool :=
  let sLow := lowerStr (fname ++ '\n' :: text)
  isSubstr "conferência de dados".data sLow ||
  isSubstr "conferencia de dados".data sLow ||
  isSubstr "credenciamento".data sLow ||
  isSubstr "alocação".data sLow || isSubstr "alocacao".data sLow ||
  isSubstr "realocação".data sLow || isSubstr "realocacao".data sLow ||
  isSubstr "transferência".data sLow || isSubstr "transferencia".data sLow ||
  isSubstr "confirmação de participação".data sLow ||
  isSubstr "confirmacao de participacao".data sLow ||
  isSubstr "classificação".data sLow || isSubstr "classificacao".data sLow ||
  isSubstr "inscrição".data sLow || isSubstr "inscricao".data sLow ||
  isSubstr "avaliação de desempenho".data sLow ||
  isSubstr "avaliacao de desempenho".data sLow

/-- Some rule of `guess_programa` fires. -/
def programa_hit (text : List Char) : Bool :=
  let s := lowerStr text
  isSubstr "programa ensino integral".data s || isSubstr " pei ".data s ||
  isSubstr "no pei".data s || isSubstr "ensino integral".data s ||
  isSubstr "tempo parcial".data s || isSubstr "eja".data s ||
  isSubstr "ensino técnico".data s || isSubstr "novotec".data s

/-- Some rule of `guess_publico_alvo` fires. -/
def publico_hit (text : List Char) : Bool :=
  let s := lowerStr text
  isSubstr "docente".data s || isSubstr "professor".data s ||
  isSubstr "diretor".data s || isSubstr "gestor".data s ||
  isSubstr "coordenador".data s || isSubstr "candidato".data s ||
  isSubstr "contratado".data s || isSubstr "pei".data s

/-- Some rule of `guess_prazos` fires. -/
def prazos_hit (text : List Char) : Bool :=
  (searchFirst (matchPrazoAt text) (text.length + 1) 0).isSome ||
  decide (2 ≤ (dateBrFindAll text).length)

/-- Some rule of `guess_data_publicacao` fires. -/
def datapub_hit (text : List Char) : Bool :=
  (searchFirst (matchDateBrAt text) (text.length + 1) 0).isSome ||
  (searchFirst (matchExtDateAt text) (text.length + 1) 0).isSome

/-- Some citation pattern of `extract_referencias_legais` fires. -/
def refs_hit (text : List Char) : Bool :=
  !(refsScan1 text).isEmpty || !(refsScan2 text).isEmpty ||
  !(refsScan3 text).isEmpty

/-! ## The embed-and-upsert pipeline

Source: `ingest_embeddings_azure_search_atribuicao.py`.  A JSONL record is a
Python dict; the keys `build_docs` reads are modelled as optional fields
(`none` = key absent or JSON `null`).  Python truthiness of strings
(`x or y`) is modelled by `truthyS`.  `coerce_dt` calls
`datetime.fromisoformat(...).astimezone(utc).isoformat()` from the standard
library; that external parse is a parameter `parseIso` (`none` = the library
raised, in which case `coerce_dt` falls back to the current time `now`, also a
parameter). -/

/-- One input record (a parsed JSONL object), restricted to the keys
`build_docs` reads. -/
structure PyObj where
  id : Option String
  id_original : Option String
  text : Option String
  content : Option String
  chunk : Option Int
  doc_title : Option String
  title : Option String
  source_file : Option String
  source : Option String
  assunto : Option String
  area_interesse : Option String
  conhecimento : Option String
  norma_tipo : Option String
  orgao_emissor : Option String
  data_publicacao : Option String
  ano_letivo : Option String
  fase_processo : Option String
  programa : Option String
  publico_alvo : Option String
  prazo_inicio : Option String
  prazo_fim : Option String
  referencias_legais : Option (List String)
  updated_at : Option String
deriving Repr

/-- The record with every key absent. -/
def emptyObj : PyObj :=
  ⟨none, none, none, none, none, none, none, none, none, none, none, none,
    none, none, none, none, none, none, none, none, none, none, none⟩

/-- One outgoing index document.  The three date fields are `Option`: the
source deletes them from the dict when they would be `None` ("Remove chaves
com None para evitar falhas de schema"). -/
structure SearchDoc where
  id : String
  id_original : String
  text : String
  content_vector : List Float
  chunk : Int
  doc_title : String
  source_file : String
  assunto : String
  area_interesse : String
  conhecimento : String
  norma_tipo : String
  orgao_emissor : String
  data_publicacao : Option String
  ano_letivo : String
  fase_processo : String
  programa : String
  publico_alvo : String
  prazo_inicio : Option String
  prazo_fim : Option String
  referencias_legais : List String
  updated_at : String

/-- Python truthiness of an optional string: `None` and `""` are falsy. -/
def truthyS : Option String → Option String
  | some s => if s = "" then none else some s
  | none => none

/-- `str(a or dflt)` for a string default. -/
def pyOrD (a : Option String) (dflt : String) : String :=
  (truthyS a).getD dflt

/-- `str(a or b or "")`. -/
def pyOr2 (a b : Option String) : String :=
  ((truthyS a).or (truthyS b)).getD ""

/-- `coerce_dt` (lines 184–190): empty/`None` or unparsable values fall back
to the current UTC time `now`; otherwise the normalised ISO form `parseIso`
returns. -/
def coerce_dt (now : String) (parseIso : String → Option String)
    (dt : Option String) : String :=
  match truthyS dt with
  | none => now
  | some s => (parseIso s).getD now

/-- One document of `build_docs` (lines 210–256), for one record and its
vector.  `id` is the stripped URL-safe base64 of
`str(obj.get("id") or obj.get("id_original") or "")`; note that the stored
`id_original` field reads only the `"id"` key.  A date field is `none`
(deleted) exactly when the incoming value is falsy. -/
def build_doc (now : String) (parseIso : String → Option String)
    (obj : PyObj) (vec : List Float) : SearchDoc :=
  { id := encode_id (pyOr2 obj.id obj.id_original)
    id_original := pyOrD obj.id ""
    text := pyOr2 obj.text obj.content
    content_vector := vec
    chunk := (obj.chunk.getD 0)
    doc_title := pyOr2 obj.doc_title obj.title
    source_file := pyOr2 obj.source_file obj.source
    assunto := pyOrD obj.assunto "obras"
    area_interesse := pyOrD obj.area_interesse "conhecimento"
    conhecimento := pyOrD obj.conhecimento ""
    norma_tipo := pyOrD obj.norma_tipo ""
    orgao_emissor := pyOrD obj.orgao_emissor ""
    data_publicacao :=
      match truthyS obj.data_publicacao with
      | some _ => some (coerce_dt now parseIso obj.data_publicacao)
      | none => none
    ano_letivo := pyOrD obj.ano_letivo ""
    fase_processo := pyOrD obj.fase_processo ""
    programa := pyOrD obj.programa ""
    publico_alvo := pyOrD obj.publico_alvo ""
    prazo_inicio :=
      match truthyS obj.prazo_inicio with
      | some _ => some (coerce_dt now parseIso obj.prazo_inicio)
      | none => none
    prazo_fim :=
      match truthyS obj.prazo_fim with
      | some _ => some (coerce_dt now parseIso obj.prazo_fim)
      | none => none
    referencias_legais :=
      match obj.referencias_legais with
      | some rl => rl
      | none => []
    updated_at := coerce_dt now parseIso obj.updated_at }

/-- `build_docs`: one document per `zip`ped record/vector pair. -/
def build_docs (now : String) (parseIso : String → Option String)
    (objs : List PyObj) (vectors : List (List Float)) : List SearchDoc :=
  (objs.zip vectors).map (fun p => build_doc now parseIso p.1 p.2)

/-- The embedding inputs of a batch:
`[str(o.get("text") or o.get("content") or "") for o in slice_objs]`. -/
def batch_inputs (batch : List PyObj) : List String :=
  batch.map (fun o => pyOr2 o.text o.content)

/-- The batch slices `objs[start:start+B]` for `start in range(0, total, B)`
(meaningful for `B ≥ 1`, which `B = max(1, batch_size)` guarantees). -/
def slicesOf (B : Nat) : List α → List (List α)
  | [] => []
  | x :: xs => (x :: xs.take (B - 1)) :: slicesOf B (xs.drop (B - 1))
termination_by l => l.length
decreasing_by
  simp only [List.length_cons, List.length_drop]
  omega

/-- The per-batch loop of `main` (lines 338–348): embed the batch inputs;
if any returned vector's length differs from `emb_dim`, raise (`errored =
true`) before building or uploading anything of that batch; otherwise build
the documents, upload them, and continue.  Returns the uploaded batches in
order, and whether the run raised. -/
def run_batches (embDim : Nat) (embed : List String → List (List Float))
    (now : String) (parseIso : String → Option String) :
    List (List PyObj) → List (List SearchDoc) × Bool
  | [] => ([], false)
  | batch :: rest =>
    let vecs := embed (batch_inputs batch)
    if vecs.any (fun v => v.length ≠ embDim) then ([], true)
    else
      let docs := build_docs now parseIso batch vecs
      let r := run_batches embDim embed now parseIso rest
      (docs :: r.1, r.2)

/-- The ingestion loop of `main`: `B = max(1, int(args.batch_size))`, then the
batched embed-and-upload loop over `objs`. -/
def main_loop (embDim : Nat) (batchSize : Int)
    (embed : List String → List (List Float)) (now : String)
    (parseIso : String → Option String) (objs : List PyObj) :
    List (List SearchDoc) × Bool :=
  run_batches embDim embed now parseIso (slicesOf (max 1 batchSize).toNat objs)

/-! ### Theorems about `windowEnd` and the loop -/

theorem findNL_lt_length {l : List Char} {k : Nat} (h : findNL l = some k) :
    k < l.length := by
  induction l generalizing k with
  | nil => simp [findNL] at h
  | cons c cs ih =>
    rw [List.length_cons]
    by_cases hc : c = '\n'
    · simp [findNL, hc] at h
      omega
    · simp [findNL, hc] at h
      obtain ⟨k', hk', rfl⟩ := h
      have := ih hk'
      omega

theorem pyFindNLFrom_bounds {l : List Char} {j nn : Nat}
    (h : pyFindNLFrom l j = some nn) : j ≤ nn ∧ nn < l.length := by
  unfold pyFindNLFrom at h
  cases hf : findNL (l.drop j) with
  | none => rw [hf] at h; simp at h
  | some k =>
    rw [hf] at h
    simp at h
    have hk := findNL_lt_length hf
    rw [List.length_drop] at hk
    omega

theorem windowEnd_le_length (snap : Bool) (text : List Char) (target i : Nat) :
    windowEnd snap text target i ≤ text.length := by
  cases snap with
  | false => exact Nat.min_le_left _ _
  | true =>
    rw [windowEnd]
    simp only [if_pos]
    by_cases h0 : min text.length (i + target) < text.length
    · rw [if_pos h0]
      cases hnl : pyFindNLFrom text (min text.length (i + target)) with
      | none => simp only [hnl]; omega
      | some nn =>
        have := pyFindNLFrom_bounds hnl
        simp only [hnl]
        split <;> omega
    · rw [if_neg h0]
      omega

theorem min_le_windowEnd (snap : Bool) (text : List Char) (target i : Nat) :
    min text.length (i + target) ≤ windowEnd snap text target i := by
  cases snap with
  | false => exact Nat.le_refl _
  | true =>
    rw [windowEnd]
    simp only [if_pos]
    by_cases h0 : min text.length (i + target) < text.length
    · rw [if_pos h0]
      cases hnl : pyFindNLFrom text (min text.length (i + target)) with
      | none => simp only [hnl]; omega
      | some nn =>
        have := pyFindNLFrom_bounds hnl
        simp only [hnl]
        split <;> omega
    · rw [if_neg h0]

theorem windowEnd_le_snap (text : List Char) (target i : Nat) :
    windowEnd true text target i ≤ i + target + 150 := by
  rw [windowEnd]
  simp only [if_pos]
  by_cases h0 : min text.length (i + target) < text.length
  · rw [if_pos h0]
    cases hnl : pyFindNLFrom text (min text.length (i + target)) with
    | none => simp only [hnl]; omega
    | some nn =>
      have := pyFindNLFrom_bounds hnl
      simp only [hnl]
      split <;> omega
  · rw [if_neg h0]
    omega

theorem windowEnd_nosnap (text : List Char) (target i : Nat) :
    windowEnd false text target i = min text.length (i + target) := rfl

/-- When the window does not reach the end of the text, the naive boundary
`i + target` was itself interior, and the (possibly snapped) end lies between
`i + target` and `i + target + 150`. -/
theorem windowEnd_of_lt {snap : Bool} {text : List Char} {target i : Nat}
    (h : windowEnd snap text target i < text.length) :
    i + target < text.length ∧ i + target ≤ windowEnd snap text target i ∧
      windowEnd snap text target i ≤ i + target + 150 := by
  have h1 := min_le_windowEnd snap text target i
  have h2 := windowEnd_le_length snap text target i
  have hit : i + target < text.length := by
    by_contra hc
    have : min text.length (i + target) = text.length := by omega
    omega
  have hle : windowEnd snap text target i ≤ i + target + 150 := by
    cases snap with
    | false => rw [windowEnd_nosnap]; omega
    | true => exact windowEnd_le_snap text target i
  exact ⟨hit, by omega, hle⟩

/-- Global upper bound on a window's width. -/
theorem windowEnd_le_add (snap : Bool) (text : List Char) (target i : Nat) :
    windowEnd snap text target i ≤ i + target + 150 := by
  cases snap with
  | false => rw [windowEnd_nosnap]; omega
  | true => exact windowEnd_le_snap text target i

theorem chunkLoop_eq_windows (snap : Bool) (text : List Char)
    (target overlap : Nat) : ∀ fuel i,
    chunkLoop snap text target overlap fuel i =
      (chunkWindows snap text target overlap fuel i).map
        (List.map (fun w => pyStrip (pySlice text w.1 w.2))) := by
  intro fuel
  induction fuel with
  | zero => intro i; rfl
  | succ fuel ih =>
    intro i
    rw [chunkLoop, chunkWindows]
    by_cases hi : i < text.length
    · rw [if_pos hi, if_pos hi]
      by_cases hj : text.length ≤ windowEnd snap text target i
      · rw [if_pos hj, if_pos hj]
        rfl
      · rw [if_neg hj, if_neg hj]
        rw [ih]
        cases chunkWindows snap text target overlap fuel
            (windowEnd snap text target i - overlap) <;> rfl
    · rw [if_neg hi, if_neg hi]
      rfl

/-- With `overlap < target` the loop terminates: fuel `text.length - i + 1`
(hence `text.length + 1` from the start) suffices. -/
theorem chunkWindows_isSome (snap : Bool) (text : List Char)
    {target overlap : Nat} (ho : overlap < target) :
    ∀ fuel i, text.length ≤ i + fuel →
      (chunkWindows snap text target overlap (fuel + 1) i).isSome := by
  intro fuel
  induction fuel with
  | zero =>
    intro i hi
    rw [chunkWindows]
    rw [if_neg (by omega)]
    rfl
  | succ fuel ih =>
    intro i hi
    rw [chunkWindows]
    by_cases hil : i < text.length
    · rw [if_pos hil]
      by_cases hj : text.length ≤ windowEnd snap text target i
      · rw [if_pos hj]; rfl
      · rw [if_neg hj]
        have hw := windowEnd_of_lt (by omega :
          windowEnd snap text target i < text.length)
        have hrec := ih (windowEnd snap text target i - overlap) (by omega)
        cases hc : chunkWindows snap text target overlap (fuel + 1)
            (windowEnd snap text target i - overlap) with
        | none => rw [hc] at hrec; simp at hrec
        | some rest => rfl
    · rw [if_neg hil]; rfl

/-- A `some` result of the window loop is a `WinChain`. -/
theorem chunkWindows_chain {snap : Bool} {text : List Char}
    {target overlap : Nat} : ∀ {fuel i ws},
    chunkWindows snap text target overlap fuel i = some ws →
    WinChain snap text target overlap i ws := by
  intro fuel
  induction fuel with
  | zero => intro i ws h; rw [chunkWindows] at h; exact absurd h (by simp)
  | succ fuel ih =>
    intro i ws h
    rw [chunkWindows] at h
    by_cases hi : i < text.length
    · rw [if_pos hi] at h
      by_cases hj : text.length ≤ windowEnd snap text target i
      · rw [if_pos hj] at h
        cases h
        exact WinChain.last hi hj
      · rw [if_neg hj] at h
        cases hc : chunkWindows snap text target overlap fuel
            (windowEnd snap text target i - overlap) with
        | none => rw [hc] at h; exact absurd h (by simp)
        | some rest =>
          rw [hc] at h
          cases h
          exact WinChain.cons hi (by omega) (ih hc)
    · rw [if_neg hi] at h
      cases h
      exact WinChain.nil (by omega)

/-! ### Slice and strip toolbox -/

theorem pySlice_length_le (l : List Char) (i j : Nat) :
    (pySlice l i j).length ≤ j - i := by
  unfold pySlice
  rw [List.length_take]
  omega

theorem pyStrip_length_le (l : List Char) : (pyStrip l).length ≤ l.length := by
  unfold pyStrip
  rw [List.length_reverse]
  calc ((l.dropWhile isPySpace).reverse.dropWhile isPySpace).length
      ≤ (l.dropWhile isPySpace).reverse.length :=
        (List.dropWhile_sublist isPySpace).length_le
    _ ≤ l.length := by
        rw [List.length_reverse]
        exact (List.dropWhile_sublist isPySpace).length_le

theorem drop_eq_pySlice_append {l : List Char} {i j : Nat} (hij : i ≤ j) :
    l.drop i = pySlice l i j ++ l.drop j := by
  unfold pySlice
  conv_lhs => rw [← List.take_append_drop (j - i) (l.drop i)]
  rw [List.drop_drop]
  congr 2
  omega

theorem pySlice_full {l : List Char} {i j : Nat} (h : l.length ≤ j) :
    pySlice l i j = l.drop i := by
  unfold pySlice
  apply List.take_of_length_le
  rw [List.length_drop]
  omega

theorem pySlice_drop (l : List Char) (i j o : Nat) :
    (pySlice l i j).drop o = pySlice l (i + o) j := by
  unfold pySlice
  rw [List.drop_take, List.drop_drop, Nat.sub_sub]

theorem pySlice_take {l : List Char} {i j o : Nat} (h : o ≤ j - i) :
    (pySlice l i j).take o = pySlice l i (i + o) := by
  unfold pySlice
  rw [List.take_take, Nat.min_eq_left h, Nat.add_sub_cancel_left]

theorem mem_dropWhile_of_neg {p : Char → Bool} {x : Char} {l : List Char}
    (h : x ∈ l) (hx : p x = false) : x ∈ l.dropWhile p := by
  induction l with
  | nil => cases h
  | cons a as ih =>
    rw [List.dropWhile_cons]
    by_cases ha : p a = true
    · rw [if_pos ha]
      rcases List.mem_cons.1 h with rfl | hmem
      · rw [hx] at ha; cases ha
      · exact ih hmem
    · rw [if_neg ha]
      exact h

/-- Stripping only removes whitespace: every non-whitespace character of `l`
is still a character of `pyStrip l`. -/
theorem mem_pyStrip {x : Char} {l : List Char}
    (h : x ∈ l) (hx : isPySpace x = false) : x ∈ pyStrip l := by
  unfold pyStrip
  rw [List.mem_reverse]
  exact mem_dropWhile_of_neg (by rw [List.mem_reverse]; exact mem_dropWhile_of_neg h hx) hx

/-- If stripping erases everything, everything was whitespace. -/
theorem pyStrip_eq_nil {l : List Char} (h : pyStrip l = []) :
    ∀ x ∈ l, isPySpace x = true := by
  intro x hx
  by_contra hb
  have := mem_pyStrip hx (by revert hb; cases isPySpace x <;> simp)
  rw [h] at this
  cases this

/-! ### Per-window facts of a `WinChain` -/

/-- Every window of the chain is at most `target + 150` wide, and at most
`target` wide when there is no newline snapping. -/
theorem winChain_width {snap : Bool} {text : List Char} {target overlap : Nat} :
    ∀ {i ws}, WinChain snap text target overlap i ws →
    ∀ w ∈ ws, w.2 ≤ w.1 + target + 150 ∧ (snap = false → w.2 ≤ w.1 + target) := by
  intro i ws h
  induction h with
  | nil _ => intro w hw; cases hw
  | last hi hj =>
    intro w hw
    rcases List.mem_singleton.1 hw with rfl
    refine ⟨windowEnd_le_add _ _ _ _, fun hs => ?_⟩
    subst hs
    rw [windowEnd_nosnap]
    omega
  | cons hi hj hr ih =>
    intro w hw
    rcases List.mem_cons.1 hw with rfl | hmem
    · refine ⟨windowEnd_le_add _ _ _ _, fun hs => ?_⟩
      subst hs
      rw [windowEnd_nosnap]
      omega
    · exact ih w hmem

/-- The windows following the cursor `i` rebuild `text[i + overlap:]` once
their overlapped prefixes are removed (they each start at `i` and re-cover
`[i, i + overlap)`). -/
theorem joinTail_eq {snap : Bool} {text : List Char} {target overlap : Nat}
    (ht : 0 < target) (ho : overlap < target) :
    ∀ {i ws}, WinChain snap text target overlap i ws →
    i + overlap < text.length →
    joinTail text overlap ws = text.drop (i + overlap) := by
  intro i0 ws0 h
  induction h with
  | @nil i hN => intro hio; omega
  | @last i hi hj =>
    intro hio
    rw [joinTail, joinTail, List.append_nil, pySlice_drop, pySlice_full hj]
  | @cons i r hi hj hr ih =>
    intro hio
    have hw := windowEnd_of_lt hj
    rw [joinTail, pySlice_drop]
    have hrec := ih (by omega)
    have heq : windowEnd snap text target i - overlap + overlap
        = windowEnd snap text target i := by omega
    rw [heq] at hrec
    rw [hrec, ← drop_eq_pySlice_append (by omega)]

/-- The windows of a chain rebuild the whole tail of the text from the chain's
starting cursor. -/
theorem reconstruct_eq {snap : Bool} {text : List Char} {target overlap : Nat}
    (ht : 0 < target) (ho : overlap < target) :
    ∀ {i ws}, WinChain snap text target overlap i ws →
    reconstruct text overlap ws = text.drop i := by
  intro i ws h
  cases h with
  | nil hN =>
    rw [reconstruct, List.drop_eq_nil_of_le hN]
  | last hi hj =>
    rw [reconstruct, joinTail, List.append_nil, pySlice_full hj]
  | cons hi hj hr =>
    have hw := windowEnd_of_lt hj
    rw [reconstruct, joinTail_eq ht ho hr (by omega)]
    have heq : windowEnd snap text target i - overlap + overlap
        = windowEnd snap text target i := by omega
    rw [heq, ← drop_eq_pySlice_append (by omega)]

/-- Every non-whitespace character at or after the chain's cursor ends up in
one of the emitted (stripped, non-empty) chunks. -/
theorem winChain_coverage {snap : Bool} {text : List Char} {target overlap : Nat} :
    ∀ {i ws}, WinChain snap text target overlap i ws →
    ∀ x ∈ text.drop i, isPySpace x = false →
    ∃ c ∈ (ws.map (fun w => pyStrip (pySlice text w.1 w.2))).filter
        (fun c => !c.isEmpty), x ∈ c := by
  intro i0 ws0 h
  induction h with
  | @nil i hN =>
    intro x hx _
    rw [List.drop_eq_nil_of_le hN] at hx
    cases hx
  | @last i hi hj =>
    intro x hx hns
    have hxin : x ∈ pyStrip (pySlice text i (windowEnd snap text target i)) := by
      rw [pySlice_full hj]
      exact mem_pyStrip hx hns
    refine ⟨pyStrip (pySlice text i (windowEnd snap text target i)), ?_, hxin⟩
    rw [List.mem_filter]
    refine ⟨by simp, ?_⟩
    cases hmem : pyStrip (pySlice text i (windowEnd snap text target i)) with
    | nil => rw [hmem] at hxin; cases hxin
    | cons a as => rfl
  | @cons i r hi hj hr ih =>
    intro x hx hns
    have hw := windowEnd_of_lt hj
    rw [drop_eq_pySlice_append (show i ≤ windowEnd snap text target i by omega)]
      at hx
    rcases List.mem_append.1 hx with hx1 | hx2
    · have hxin := mem_pyStrip hx1 hns
      refine ⟨pyStrip (pySlice text i (windowEnd snap text target i)), ?_, hxin⟩
      rw [List.mem_filter]
      refine ⟨by simp, ?_⟩
      cases hmem : pyStrip (pySlice text i (windowEnd snap text target i)) with
      | nil => rw [hmem] at hxin; cases hxin
      | cons a as => rfl
    · have hx' : x ∈ text.drop (windowEnd snap text target i - overlap) := by
        rw [drop_eq_pySlice_append
          (show windowEnd snap text target i - overlap
              ≤ windowEnd snap text target i by omega)]
        exact List.mem_append.2 (Or.inr hx2)
      obtain ⟨c, hc, hxc⟩ := ih x hx' hns
      refine ⟨c, ?_, hxc⟩
      rw [List.mem_filter] at hc ⊢
      exact ⟨List.mem_cons.2 (Or.inr hc.1), hc.2⟩

/-- In a chain, the trailing `overlap` characters of each raw window equal the
leading `overlap` characters of the next raw window. -/
theorem winChain_overlap {snap : Bool} {text : List Char} {target overlap : Nat}
    (ht : 0 < target) (ho : overlap < target) :
    ∀ {i ws}, WinChain snap text target overlap i ws →
    Consecutive (OverlapRel text overlap) ws := by
  intro i0 ws0 h
  induction h with
  | nil _ => exact trivial
  | last _ _ => exact trivial
  | @cons i r hi hj hr ih =>
    have hw := windowEnd_of_lt hj
    -- the next window is at least `overlap + 1` wide
    have hwide : ∀ i', i' + overlap < text.length →
        overlap < windowEnd snap text target i' - i' := by
      intro i' hio
      have h1 := min_le_windowEnd snap text target i'
      by_cases hc : i' + target ≤ text.length
      · have : min text.length (i' + target) = i' + target := by omega
        omega
      · have : min text.length (i' + target) = text.length := by omega
        omega
    cases hr with
    | nil hN => omega
    | @last i2 hi' hj' =>
      refine ⟨?_, trivial⟩
      unfold OverlapRel
      rw [pySlice_drop]
      have h2 := hwide (windowEnd snap text target i - overlap) (by omega)
      rw [pySlice_take (by omega)]
      simp only
      congr 1 <;> omega
    | @cons i2 r2 hi' hj' hr' =>
      refine ⟨?_, ih⟩
      unfold OverlapRel
      rw [pySlice_drop]
      have h2 := hwide (windowEnd snap text target i - overlap) (by omega)
      rw [pySlice_take (by omega)]
      simp only
      congr 1 <;> omega

/-! ### Identifier encoding: round trip -/

theorem char_toNat_lt (c : Char) : c.toNat < 1114112 := by
  rcases c.valid with h | ⟨h1, h2⟩
  · exact Nat.lt_trans h (by norm_num)
  · exact h2

theorem char_toNat_isValid (c : Char) : c.toNat.isValidChar := c.valid

theorem utf8EncodeChar_lt (c : Char) : ∀ b ∈ utf8EncodeChar c, b < 256 := by
  intro b hb
  have hc := char_toNat_lt c
  unfold utf8EncodeChar at hb
  by_cases h1 : c.toNat < 128
  · rw [if_pos h1] at hb
    simp at hb
    omega
  · rw [if_neg h1] at hb
    by_cases h2 : c.toNat < 2048
    · rw [if_pos h2] at hb
      simp at hb
      rcases hb with rfl | rfl <;> omega
    · rw [if_neg h2] at hb
      by_cases h3 : c.toNat < 65536
      · rw [if_pos h3] at hb
        simp at hb
        rcases hb with rfl | rfl | rfl <;> omega
      · rw [if_neg h3] at hb
        simp at hb
        rcases hb with rfl | rfl | rfl | rfl <;> omega

theorem utf8Encode_lt (s : List Char) : ∀ b ∈ utf8Encode s, b < 256 := by
  intro b hb
  unfold utf8Encode at hb
  rw [List.mem_flatMap] at hb
  obtain ⟨c, _, hbc⟩ := hb
  exact utf8EncodeChar_lt c b hbc

/-- Decoding one sequence undoes the per-character encoder. -/
theorem utf8DecodeOne_encodeChar (c : Char) (tail : List Nat) :
    utf8DecodeOne (utf8EncodeChar c ++ tail) = some (c.toNat, tail) := by
  have hc := char_toNat_lt c
  unfold utf8EncodeChar
  by_cases h1 : c.toNat < 128
  · rw [if_pos h1, List.cons_append, List.nil_append, utf8DecodeOne, if_pos h1]
  · rw [if_neg h1]
    by_cases h2 : c.toNat < 2048
    · rw [if_pos h2, List.cons_append, List.cons_append, List.nil_append,
        utf8DecodeOne, if_neg (by omega), if_pos (by omega), utf8Dec2]
      have hv : (192 + c.toNat / 64 - 192) * 64 + (128 + c.toNat % 64 - 128)
          = c.toNat := by omega
      rw [hv]
    · rw [if_neg h2]
      by_cases h3 : c.toNat < 65536
      · rw [if_pos h3, List.cons_append, List.cons_append, List.cons_append,
          List.nil_append, utf8DecodeOne,
          if_neg (by omega), if_neg (by omega), if_pos (by omega), utf8Dec3]
        have hv : (224 + c.toNat / 4096 - 224) * 4096 +
            (128 + c.toNat / 64 % 64 - 128) * 64 + (128 + c.toNat % 64 - 128)
            = c.toNat := by omega
        rw [hv]
      · rw [if_neg h3, List.cons_append, List.cons_append, List.cons_append,
          List.cons_append, List.nil_append, utf8DecodeOne,
          if_neg (by omega), if_neg (by omega), if_neg (by omega), utf8Dec4]
        have hv : (240 + c.toNat / 262144 - 240) * 262144 +
            (128 + c.toNat / 4096 % 64 - 128) * 4096 +
            (128 + c.toNat / 64 % 64 - 128) * 64 + (128 + c.toNat % 64 - 128)
            = c.toNat := by omega
        rw [hv]

theorem utf8EncodeChar_ne_nil (c : Char) : ∃ b bs, utf8EncodeChar c = b :: bs := by
  unfold utf8EncodeChar
  by_cases h1 : c.toNat < 128
  · rw [if_pos h1]; exact ⟨_, _, rfl⟩
  · rw [if_neg h1]
    by_cases h2 : c.toNat < 2048
    · rw [if_pos h2]; exact ⟨_, _, rfl⟩
    · rw [if_neg h2]
      by_cases h3 : c.toNat < 65536
      · rw [if_pos h3]; exact ⟨_, _, rfl⟩
      · rw [if_neg h3]; exact ⟨_, _, rfl⟩

theorem utf8DecodeFuel_encode : ∀ (s : List Char) (fuel : Nat),
    s.length ≤ fuel →
    utf8DecodeFuel fuel (utf8Encode s) = some (s.map Char.toNat) := by
  intro s
  induction s with
  | nil =>
    intro fuel _
    show utf8DecodeFuel fuel [] = some []
    cases fuel <;> rfl
  | cons c cs ih =>
    intro fuel hfuel
    rw [List.length_cons] at hfuel
    obtain ⟨f, rfl⟩ : ∃ f, fuel = f + 1 := ⟨fuel - 1, by omega⟩
    obtain ⟨b, bs, hb⟩ := utf8EncodeChar_ne_nil c
    have henc : utf8Encode (c :: cs) = b :: (bs ++ utf8Encode cs) := by
      unfold utf8Encode
      rw [List.flatMap_cons, hb, List.cons_append]
    rw [henc, utf8DecodeFuel]
    have hone : utf8DecodeOne (b :: (bs ++ utf8Encode cs))
        = some (c.toNat, utf8Encode cs) := by
      rw [← List.cons_append, ← hb]
      exact utf8DecodeOne_encodeChar c (utf8Encode cs)
    rw [hone]
    show (utf8DecodeFuel f (utf8Encode cs)).map (fun l => c.toNat :: l)
        = some (List.map Char.toNat (c :: cs))
    rw [ih f (by omega)]
    rfl

theorem length_le_utf8Encode (s : List Char) :
    s.length ≤ (utf8Encode s).length := by
  induction s with
  | nil => exact Nat.le_refl _
  | cons c cs ih =>
    obtain ⟨b, bs, hb⟩ := utf8EncodeChar_ne_nil c
    have henc : utf8Encode (c :: cs) = b :: (bs ++ utf8Encode cs) := by
      unfold utf8Encode
      rw [List.flatMap_cons, hb, List.cons_append]
    rw [henc, List.length_cons, List.length_cons, List.length_append]
    omega

theorem utf8Decode_encode (s : List Char) :
    utf8Decode (utf8Encode s) = some (s.map Char.toNat) :=
  utf8DecodeFuel_encode s (utf8Encode s).length (length_le_utf8Encode s)

theorem b64_alphabet_rt : ∀ n, n < 64 → b64Val (b64Char n) = n ∧ b64Char n ≠ '=' := by
  decide

theorem b64EncodeN_lt : ∀ l : List Nat, (∀ b ∈ l, b < 256) →
    ∀ x ∈ b64EncodeN l, x < 64 := by
  intro l
  induction l using b64EncodeN.induct with
  | case1 =>
    intro _ x hx
    simp [b64EncodeN] at hx
  | case2 a =>
    intro hl x hx
    have ha := hl a (by simp)
    simp [b64EncodeN] at hx
    rcases hx with rfl | rfl <;> omega
  | case3 a b =>
    intro hl x hx
    have ha := hl a (by simp)
    have hb := hl b (by simp)
    simp [b64EncodeN] at hx
    rcases hx with rfl | rfl | rfl <;> omega
  | case4 a b c rest ih =>
    intro hl x hx
    have ha := hl a (by simp)
    have hb := hl b (by simp)
    have hcc := hl c (by simp)
    rw [b64EncodeN] at hx
    simp only [List.mem_cons] at hx
    rcases hx with rfl | rfl | rfl | rfl | hx
    · omega
    · omega
    · omega
    · omega
    · exact ih (fun y hy => hl y (by simp [hy])) x hx

theorem b64DecodeN_encodeN : ∀ l : List Nat, (∀ b ∈ l, b < 256) →
    b64DecodeN (b64EncodeN l) = l := by
  intro l
  induction l using b64EncodeN.induct with
  | case1 => intro _; rfl
  | case2 a =>
    intro hl
    have ha := hl a (by simp)
    rw [b64EncodeN, b64DecodeN]
    have : a / 4 * 4 + a % 4 * 16 / 16 = a := by omega
    rw [this]
  | case3 a b =>
    intro hl
    have ha := hl a (by simp)
    have hb := hl b (by simp)
    rw [b64EncodeN, b64DecodeN]
    have h1 : a / 4 * 4 + (a % 4 * 16 + b / 16) / 16 = a := by omega
    have h2 : (a % 4 * 16 + b / 16) % 16 * 16 + b % 16 * 4 / 4 = b := by omega
    rw [h1, h2]
  | case4 a b c rest ih =>
    intro hl
    have ha := hl a (by simp)
    have hb := hl b (by simp)
    have hcc := hl c (by simp)
    rw [b64EncodeN, b64DecodeN]
    have h1 : a / 4 * 4 + (a % 4 * 16 + b / 16) / 16 = a := by omega
    have h2 : (a % 4 * 16 + b / 16) % 16 * 16 + (b % 16 * 4 + c / 64) / 4 = b := by
      omega
    have h3 : (b % 16 * 4 + c / 64) % 4 * 64 + c % 64 = c := by omega
    rw [h1, h2, h3, ih (fun y hy => hl y (by simp [hy]))]

theorem filter_padB64 (l : List Char) (hl : ∀ c ∈ l, c ≠ '=') :
    (padB64 l).filter (fun c => c ≠ '=') = l := by
  unfold padB64
  rw [List.filter_append]
  have h1 : l.filter (fun c => c ≠ '=') = l := by
    rw [List.filter_eq_self]
    intro c hc
    simpa using hl c hc
  have h2 : (List.replicate ((4 - l.length % 4) % 4) '=').filter
      (fun c => c ≠ '=') = [] := by
    rw [List.filter_eq_nil_iff]
    intro c hc
    rw [List.eq_of_mem_replicate hc]
    simp
  rw [h1, h2, List.append_nil]

/-- The full identifier round trip: decoding recovers the original string. -/
theorem decode_encode_id (s : String) : decode_id (encode_id s) = some s := by
  unfold decode_id encode_id
  have hsx : ∀ x ∈ b64EncodeN (utf8Encode s.data), x < 64 :=
    b64EncodeN_lt _ (utf8Encode_lt s.data)
  have hne : ∀ c ∈ (b64EncodeN (utf8Encode s.data)).map b64Char, c ≠ '=' := by
    intro c hc
    rw [List.mem_map] at hc
    obtain ⟨n, hn, rfl⟩ := hc
    exact (b64_alphabet_rt n (hsx n hn)).2
  rw [show (String.mk ((b64EncodeN (utf8Encode s.data)).map b64Char)).data
      = (b64EncodeN (utf8Encode s.data)).map b64Char from rfl]
  rw [filter_padB64 _ hne]
  rw [List.map_map]
  have hmap : List.map (b64Val ∘ b64Char) (b64EncodeN (utf8Encode s.data))
      = List.map id (b64EncodeN (utf8Encode s.data)) :=
    List.map_congr_left (fun n hn => (b64_alphabet_rt n (hsx n hn)).1)
  rw [hmap, List.map_id]
  rw [b64DecodeN_encodeN _ (utf8Encode_lt s.data)]
  rw [utf8Decode_encode, Option.some_bind]
  have hvalid : (s.data.map Char.toNat).all (fun n => decide n.isValidChar) = true := by
    rw [List.all_eq_true]
    intro n hn
    rw [List.mem_map] at hn
    obtain ⟨c, _, rfl⟩ := hn
    exact decide_eq_true (char_toNat_isValid c)
  rw [if_pos hvalid]
  rw [List.map_map]
  have hid : List.map (Char.ofNat ∘ Char.toNat) s.data = List.map id s.data :=
    List.map_congr_left (fun c _ => Char.ofNat_toNat c)
  rw [hid, List.map_id]

/-- Injectivity of the identifier encoding, a consequence of the round trip. -/
theorem encode_id_injective {s t : String} (h : encode_id s = encode_id t) :
    s = t := by
  have hs := decode_encode_id s
  have ht := decode_encode_id t
  rw [h, ht] at hs
  exact (Option.some.inj hs).symm

/-! ### From `chunk_text` to the window loop -/

theorem chunk_text_eq_windows (text : List Char) {target overlap : Nat}
    (ht : target ≠ 0) :
    chunk_text text target overlap =
      (chunkWindows true (pyStrip text) target overlap
          ((pyStrip text).length + 1) 0).map
        (fun ws => (ws.map (fun w => pyStrip (pySlice (pyStrip text) w.1 w.2))).filter
          (fun c => !c.isEmpty)) := by
  unfold chunk_text
  by_cases he : (pyStrip text).isEmpty
  · rw [if_pos he]
    have hnil : pyStrip text = [] := by
      cases hp : pyStrip text with
      | nil => rfl
      | cons a as => rw [hp] at he; cases he
    rw [hnil]
    rfl
  · rw [if_neg he, if_neg ht]
    rw [chunkLoop_eq_windows]
    cases chunkWindows true (pyStrip text) target overlap
        ((pyStrip text).length + 1) 0 <;> rfl

theorem chunk_text_1712_eq_windows (text : List Char) {target overlap : Nat}
    (ht : target ≠ 0) :
    chunk_text_1712 text target overlap =
      (chunkWindows false (pyStrip text) target overlap
          ((pyStrip text).length + 1) 0).map
        (fun ws => (ws.map (fun w => pyStrip (pySlice (pyStrip text) w.1 w.2))).filter
          (fun c => !c.isEmpty)) := by
  unfold chunk_text_1712
  by_cases he : (pyStrip text).isEmpty
  · rw [if_pos he]
    have hnil : pyStrip text = [] := by
      cases hp : pyStrip text with
      | nil => rfl
      | cons a as => rw [hp] at he; cases he
    rw [hnil]
    rfl
  · rw [if_neg he, if_neg ht]
    rw [chunkLoop_eq_windows]
    cases chunkWindows false (pyStrip text) target overlap
        ((pyStrip text).length + 1) 0 <;> rfl

/-- Every stripped chunk built from a window of a `some` window-loop run is
bounded by the window widths. -/
theorem chunks_bound {snap : Bool} {text : List Char} {target overlap : Nat}
    {ws : List (Nat × Nat)}
    (hws : chunkWindows snap (pyStrip text) target overlap
      ((pyStrip text).length + 1) 0 = some ws) :
    ∀ c ∈ (ws.map (fun w => pyStrip (pySlice (pyStrip text) w.1 w.2))).filter
        (fun c => !c.isEmpty),
      c.length ≤ target + 150 ∧ (snap = false → c.length ≤ target) := by
  intro c hc
  rw [List.mem_filter] at hc
  rw [List.mem_map] at hc
  obtain ⟨⟨w, hwmem, rfl⟩, _⟩ := hc
  have hwidth := winChain_width (chunkWindows_chain hws) w hwmem
  have hlen : (pyStrip (pySlice (pyStrip text) w.1 w.2)).length ≤ w.2 - w.1 :=
    le_trans (pyStrip_length_le _) (pySlice_length_le _ _ _)
  exact ⟨by omega, fun hs => by have := hwidth.2 hs; omega⟩

/-! ### Pipeline support lemmas -/

theorem slicesOf_flatten_aux (B : Nat) :
    ∀ (n : Nat) (l : List α), l.length ≤ n → (slicesOf B l).flatten = l := by
  intro n
  induction n with
  | zero =>
    intro l hl
    cases l with
    | nil => simp [slicesOf]
    | cons x xs => simp at hl
  | succ n ih =>
    intro l hl
    cases l with
    | nil => simp [slicesOf]
    | cons x xs =>
      rw [slicesOf, List.flatten_cons]
      have hrec : (slicesOf B (xs.drop (B - 1))).flatten = xs.drop (B - 1) :=
        ih (xs.drop (B - 1)) (by simp at hl ⊢; omega)
      rw [hrec, List.cons_append, List.take_append_drop]

theorem slicesOf_flatten (B : Nat) (l : List α) : (slicesOf B l).flatten = l :=
  slicesOf_flatten_aux B l.length l (Nat.le_refl _)

theorem slicesOf_mem_aux {B : Nat} (hB : 1 ≤ B) :
    ∀ (n : Nat) (l : List α), l.length ≤ n →
      ∀ s ∈ slicesOf B l, s ≠ [] ∧ s.length ≤ B := by
  intro n
  induction n with
  | zero =>
    intro l hl s hs
    cases l with
    | nil => rw [slicesOf] at hs; cases hs
    | cons x xs => simp at hl
  | succ n ih =>
    intro l hl s hs
    cases l with
    | nil => rw [slicesOf] at hs; cases hs
    | cons x xs =>
      rw [slicesOf] at hs
      rcases List.mem_cons.1 hs with rfl | hmem
      · refine ⟨by simp, ?_⟩
        rw [List.length_cons, List.length_take]
        omega
      · exact ih (xs.drop (B - 1)) (by simp at hl ⊢; omega) s hmem

theorem slicesOf_mem {B : Nat} (hB : 1 ≤ B) (l : List α) :
    ∀ s ∈ slicesOf B l, s ≠ [] ∧ s.length ≤ B :=
  slicesOf_mem_aux hB l.length l (Nat.le_refl _)

theorem build_docs_length (now : String) (parseIso : String → Option String)
    (objs : List PyObj) (vectors : List (List Float)) :
    (build_docs now parseIso objs vectors).length = min objs.length vectors.length := by
  unfold build_docs
  rw [List.length_map, List.length_zip]

/-- When every returned vector has the right dimension, the loop uploads every
batch, in order, and does not raise. -/
theorem run_batches_ok (embDim : Nat) (embed : List String → List (List Float))
    (now : String) (parseIso : String → Option String)
    (hdim : ∀ xs, ∀ v ∈ embed xs, v.length = embDim) :
    ∀ bs : List (List PyObj),
      run_batches embDim embed now parseIso bs =
        (bs.map (fun b => build_docs now parseIso b (embed (batch_inputs b))), false) := by
  intro bs
  induction bs with
  | nil => rfl
  | cons b rest ih =>
    rw [run_batches]
    have hany : (embed (batch_inputs b)).any (fun v => v.length ≠ embDim) = false := by
      rw [Bool.eq_false_iff]
      intro hc
      rw [List.any_eq_true] at hc
      obtain ⟨v, hv, hvl⟩ := hc
      rw [decide_eq_true_eq] at hvl
      exact hvl (hdim _ v hv)
    rw [hany]
    simp only [Bool.false_eq_true, if_false, ih, List.map_cons]

/-- When batch `k` is the first whose vectors are mis-dimensioned, the loop
uploads exactly the batches before `k` and raises; in particular no document
of batch `k` (or later) is built or uploaded. -/
theorem run_batches_err (embDim : Nat) (embed : List String → List (List Float))
    (now : String) (parseIso : String → Option String) :
    ∀ (k : Nat) (bs : List (List PyObj)), k < bs.length →
      (∀ m, m < k → ∀ v ∈ embed (batch_inputs (bs.getD m [])), v.length = embDim) →
      (∃ v ∈ embed (batch_inputs (bs.getD k [])), v.length ≠ embDim) →
      run_batches embDim embed now parseIso bs =
        ((bs.take k).map (fun b => build_docs now parseIso b (embed (batch_inputs b))),
          true) := by
  intro k
  induction k with
  | zero =>
    intro bs hk hpre hbad
    cases bs with
    | nil => simp at hk
    | cons b rest =>
      rw [run_batches]
      have hany : (embed (batch_inputs b)).any (fun v => v.length ≠ embDim) = true := by
        rw [List.any_eq_true]
        obtain ⟨v, hv, hvl⟩ := hbad
        exact ⟨v, hv, decide_eq_true hvl⟩
      rw [hany]
      simp
  | succ k ih =>
    intro bs hk hpre hbad
    cases bs with
    | nil => simp at hk
    | cons b rest =>
      rw [run_batches]
      have hgood := hpre 0 (by omega)
      have hany : (embed (batch_inputs b)).any (fun v => v.length ≠ embDim) = false := by
        rw [Bool.eq_false_iff]
        intro hc
        rw [List.any_eq_true] at hc
        obtain ⟨v, hv, hvl⟩ := hc
        rw [decide_eq_true_eq] at hvl
        exact hvl (hgood v hv)
      rw [hany]
      have hrec := ih rest (by simpa using hk)
        (fun m hm => hpre (m + 1) (by omega)) hbad
      simp only [Bool.false_eq_true, if_false, hrec, List.take_succ_cons,
        List.map_cons]

/-! ### Per-extractor default lemmas (no rule fires ⇒ documented default) -/

theorem conhecimento_default {fname : List Char}
    (h : conhecimento_hit fname = false) :
    infer_conhecimento fname = "Geral" := by
  unfold conhecimento_hit at h
  unfold infer_conhecimento
  simp only [Bool.or_eq_false_iff, Bool.and_eq_false_iff] at h
  obtain ⟨⟨h8, hconf⟩, hENS⟩ := h
  rcases hconf with hc | hp <;> simp_all

theorem norma_default {text fname : List Char}
    (h : norma_hit text fname = false) :
    guess_norma_tipo text fname = "" := by
  unfold norma_hit at h
  unfold guess_norma_tipo
  simp only [Bool.or_eq_false_iff] at h
  simp_all

theorem orgao_default {text : List Char} (h : orgao_hit text = false) :
    guess_orgao_emissor text = "" := by
  unfold orgao_hit at h
  unfold guess_orgao_emissor
  simp only [Bool.or_eq_false_iff] at h
  simp_all

theorem ano_default {text fname : List Char} (h : ano_hit text fname = false) :
    guess_ano_letivo text fname = "" := by
  unfold ano_hit at h
  unfold guess_ano_letivo
  simp only [Bool.or_eq_false_iff, Bool.not_eq_false'] at h
  simp_all

theorem fase_default {text fname : List Char} (h : fase_hit text fname = false) :
    guess_fase_processo text fname = "" := by
  unfold fase_hit at h
  unfold guess_fase_processo
  simp only [Bool.or_eq_false_iff] at h
  simp_all

theorem programa_default {text : List Char} (h : programa_hit text = false) :
    guess_programa text = "" := by
  unfold programa_hit at h
  unfold guess_programa
  simp only [Bool.or_eq_false_iff] at h
  simp_all

theorem publico_default {text : List Char} (h : publico_hit text = false) :
    guess_publico_alvo text = "Geral" := by
  unfold publico_hit at h
  unfold guess_publico_alvo
  simp only [Bool.or_eq_false_iff] at h
  simp_all

theorem prazos_default {text : List Char} (h : prazos_hit text = false) :
    guess_prazos text = ("", "") := by
  unfold prazos_hit at h
  rw [Bool.or_eq_false_iff] at h
  obtain ⟨h1, h2⟩ := h
  have hnone : searchFirst (matchPrazoAt text) (text.length + 1) 0 = none :=
    Option.isNone_iff_eq_none.mp (Option.not_isSome.mp h1)
  have h2' := of_decide_eq_false h2
  unfold guess_prazos
  rw [hnone]
  cases hds : dateBrFindAll text with
  | nil => rfl
  | cons a tl =>
    cases tl with
    | nil => rfl
    | cons b tl2 =>
      exfalso
      rw [hds, List.length_cons, List.length_cons] at h2'
      omega

theorem datapub_default {text : List Char} (h : datapub_hit text = false) :
    guess_data_publicacao text = "" := by
  unfold datapub_hit at h
  rw [Bool.or_eq_false_iff] at h
  obtain ⟨h1, h2⟩ := h
  have hn1 : searchFirst (matchDateBrAt text) (text.length + 1) 0 = none :=
    Option.isNone_iff_eq_none.mp (Option.not_isSome.mp h1)
  have hn2 : searchFirst (matchExtDateAt text) (text.length + 1) 0 = none :=
    Option.isNone_iff_eq_none.mp (Option.not_isSome.mp h2)
  unfold guess_data_publicacao
  rw [hn1, hn2]

theorem refs_default {text : List Char} (h : refs_hit text = false) :
    extract_referencias_legais text = [] := by
  unfold refs_hit at h
  simp only [Bool.or_eq_false_iff, Bool.not_eq_false'] at h
  obtain ⟨⟨h1, h2⟩, h3⟩ := h
  rw [List.isEmpty_iff] at h1 h2 h3
  unfold extract_referencias_legais
  rw [h1, h2, h3]
  rfl

/-! ## The claims -/

/-- C1: the identifier encoding of the record builder (UTF-8 encode, URL-safe
base64, strip trailing `'='` padding) is deterministic and decodable: decoding
the resulting id (re-adding padding and base64-decoding) recovers
`id_original` exactly, and distinct `id_original` strings encode to distinct
ids (here: equal encodings force equal inputs). -/
theorem claim_C1_id_roundtrip (s t : String) (h : encode_id s = encode_id t) :
    decode_id (encode_id s) = some s ∧ s = t :=
  ⟨decode_encode_id s, encode_id_injective h⟩

theorem claim_C1_witness :
    decode_id (encode_id "kb/ac.pdf#chunk1") = some "kb/ac.pdf#chunk1" ∧
      "kb/ac.pdf#chunk1" = "kb/ac.pdf#chunk1" :=
  claim_C1_id_roundtrip "kb/ac.pdf#chunk1" "kb/ac.pdf#chunk1" rfl

/-- C2, as stated, is false on `make_kb_jsonl_atribuicao.py`: with
`target_chars = 5`, `overlap = 0` and the text `"aaaaab\nccccccc"`, the
newline lookahead extends the first window to the newline, so the first of
the three returned chunks has length `6 > 5` although it is not the last. -/
theorem claim_C2_counterexample :
    chunk_text ("aaaaab\nccccccc".data) 5 0 =
      some ["aaaaab".data, "ccccc".data, "cc".data] ∧
    ((["aaaaab".data, "ccccc".data, "cc".data].getD 0 []).length = 6 ∧
      ¬((["aaaaab".data, "ccccc".data, "cc".data].getD 0 []).length ≤ 5)) := by
  constructor
  · decide
  · decide

/-- C2 (amended): for `0 < target_size` and `0 ≤ overlap < target_size`,
every chunk returned by the snapping `chunk_text` has length at most
`target_size + 150` (the 150-character newline lookahead), and every chunk
returned by the `1712_1815` variant (no snapping) has length at most
`target_size`. -/
theorem claim_C2_chunk_bound (text : List Char) (target overlap : Nat)
    (ht : 0 < target) (ho : overlap < target) (cs cs' : List (List Char))
    (h : chunk_text text target overlap = some cs)
    (h' : chunk_text_1712 text target overlap = some cs') :
    (∀ c ∈ cs, c.length ≤ target + 150) ∧ (∀ c ∈ cs', c.length ≤ target) := by
  rw [chunk_text_eq_windows text (by omega)] at h
  rw [chunk_text_1712_eq_windows text (by omega)] at h'
  rw [Option.map_eq_some'] at h h'
  obtain ⟨ws, hws, rfl⟩ := h
  obtain ⟨ws', hws', rfl⟩ := h'
  exact ⟨fun c hc => (chunks_bound hws c hc).1,
    fun c hc => (chunks_bound hws' c hc).2 rfl⟩

theorem claim_C2_witness :
    (∀ c ∈ ["a".data, "b".data], List.length c ≤ 1 + 150) ∧
    (∀ c ∈ ["a".data, "b".data], List.length c ≤ 1) :=
  claim_C2_chunk_bound "ab".data 1 0 (by decide) (by decide)
    ["a".data, "b".data] ["a".data, "b".data] (by decide) (by decide)

/-- C3: for `0 < target_size` and `0 ≤ overlap < target_size` both
`chunk_text` loops terminate (fuel `length + 1` returns `some`), and on every
iteration whose window does not reach the end of the text the cursor strictly
advances: `i < windowEnd - overlap`. -/
theorem claim_C3_termination (text : List Char) (target overlap : Nat)
    (ht : 0 < target) (ho : overlap < target) :
    (chunk_text text target overlap).isSome ∧
    (chunk_text_1712 text target overlap).isSome ∧
    (∀ (snap : Bool) (i : Nat), i < (pyStrip text).length →
      windowEnd snap (pyStrip text) target i < (pyStrip text).length →
      i < windowEnd snap (pyStrip text) target i - overlap) := by
  refine ⟨?_, ?_, ?_⟩
  · rw [chunk_text_eq_windows text (by omega)]
    have hsome := chunkWindows_isSome true (pyStrip text) ho
      (pyStrip text).length 0 (by omega)
    obtain ⟨ws, hws⟩ := Option.isSome_iff_exists.mp hsome
    rw [hws]
    rfl
  · rw [chunk_text_1712_eq_windows text (by omega)]
    have hsome := chunkWindows_isSome false (pyStrip text) ho
      (pyStrip text).length 0 (by omega)
    obtain ⟨ws, hws⟩ := Option.isSome_iff_exists.mp hsome
    rw [hws]
    rfl
  · intro snap i hi hj
    have hw := windowEnd_of_lt hj
    omega

theorem claim_C3_witness :
    (chunk_text "ab".data 1 0).isSome ∧
    (chunk_text_1712 "ab".data 1 0).isSome ∧
    (∀ (snap : Bool) (i : Nat), i < (pyStrip "ab".data).length →
      windowEnd snap (pyStrip "ab".data) 1 i < (pyStrip "ab".data).length →
      i < windowEnd snap (pyStrip "ab".data) 1 i - 0) :=
  claim_C3_termination "ab".data 1 0 (by decide) (by decide)

/-- C4: for `0 < target_size` and `0 ≤ overlap < target_size`, the chunks
returned by `chunk_text` are the stripped window slices; the raw windows,
concatenated with each overlapped region re-inserted only once, reconstruct
the (edge-stripped) original text exactly; and no non-whitespace character of
the source text is dropped: each appears in some returned chunk. -/
theorem claim_C4_coverage (text : List Char) (target overlap : Nat)
    (ht : 0 < target) (ho : overlap < target) :
    ∃ cs ws,
      chunk_text text target overlap = some cs ∧
      chunkWindows true (pyStrip text) target overlap
        ((pyStrip text).length + 1) 0 = some ws ∧
      cs = (ws.map (fun w => pyStrip (pySlice (pyStrip text) w.1 w.2))).filter
        (fun c => !c.isEmpty) ∧
      reconstruct (pyStrip text) overlap ws = pyStrip text ∧
      (∀ x ∈ text, isPySpace x = false → ∃ c ∈ cs, x ∈ c) := by
  have hsome := chunkWindows_isSome true (pyStrip text) ho
    (pyStrip text).length 0 (by omega)
  obtain ⟨ws, hws⟩ := Option.isSome_iff_exists.mp hsome
  refine ⟨_, ws, ?_, hws, rfl, ?_, ?_⟩
  · rw [chunk_text_eq_windows text (by omega), hws]
    rfl
  · have hrec := reconstruct_eq ht ho (chunkWindows_chain hws)
    rw [List.drop_zero] at hrec
    exact hrec
  · intro x hx hns
    have hx' : x ∈ (pyStrip text).drop 0 := by
      rw [List.drop_zero]
      exact mem_pyStrip hx hns
    exact winChain_coverage (chunkWindows_chain hws) x hx' hns

theorem claim_C4_witness :
    ∃ cs ws,
      chunk_text "ab".data 1 0 = some cs ∧
      chunkWindows true (pyStrip "ab".data) 1 0
        ((pyStrip "ab".data).length + 1) 0 = some ws ∧
      cs = (ws.map (fun w => pyStrip (pySlice (pyStrip "ab".data) w.1 w.2))).filter
        (fun c => !c.isEmpty) ∧
      reconstruct (pyStrip "ab".data) 0 ws = pyStrip "ab".data ∧
      (∀ x ∈ ("ab".data : List Char), isPySpace x = false → ∃ c ∈ cs, x ∈ c) :=
  claim_C4_coverage "ab".data 1 0 (by decide) (by decide)

/-- C5, as stated, is false on the code: the chunks are `.strip()`ped before
being returned, so with `text = "abc def"`, `target_size = 4`,
`overlap = 1` (`len(text) = 7 > 4`, `0 < 1 < 4`) the returned chunks are
`["abc", "def"]`, and the trailing 1 character of `"abc"` (`"c"`) differs
from the leading 1 character of `"def"` (`"d"`). -/
theorem claim_C5_counterexample :
    ("abc def".data : List Char).length = 7 ∧
    chunk_text "abc def".data 4 1 = some ["abc".data, "def".data] ∧
    ¬(("abc".data : List Char).drop (("abc".data : List Char).length - 1) =
      ("def".data : List Char).take 1) := by
  refine ⟨by decide, by decide, by decide⟩

/-- C5 (amended): the overlap equality holds for the raw windows, before the
per-chunk trimming: for `0 < overlap < target_size`, in the window sequence
that `chunk_text` strips and filters into its result, every two consecutive
raw windows satisfy `OverlapRel`: the trailing `overlap` characters of one
window are the leading `overlap` characters of the next. -/
theorem claim_C5_overlap (text : List Char) (target overlap : Nat)
    (ht : 0 < target) (ho0 : 0 < overlap) (ho : overlap < target)
    (hlen : target < text.length) (ws : List (Nat × Nat))
    (h : chunkWindows true (pyStrip text) target overlap
      ((pyStrip text).length + 1) 0 = some ws) :
    chunk_text text target overlap =
      some ((ws.map (fun w => pyStrip (pySlice (pyStrip text) w.1 w.2))).filter
        (fun c => !c.isEmpty)) ∧
    Consecutive (OverlapRel (pyStrip text) overlap) ws := by
  constructor
  · rw [chunk_text_eq_windows text (by omega), h]
    rfl
  · exact winChain_overlap ht ho (chunkWindows_chain h)

theorem claim_C5_witness :
    chunk_text "abc def".data 4 1 =
      some (([(0, 4), (3, 7)].map
        (fun w => pyStrip (pySlice (pyStrip "abc def".data) w.1 w.2))).filter
        (fun c => !c.isEmpty)) ∧
    Consecutive (OverlapRel (pyStrip "abc def".data) 1) [(0, 4), (3, 7)] :=
  claim_C5_overlap "abc def".data 4 1 (by decide) (by decide) (by decide)
    (by decide) [(0, 4), (3, 7)] (by decide)

/-- C6: if, for some batch, any embedding vector returned by the provider has
a length different from the configured `emb_dim` (and the earlier batches
were well-dimensioned), the loop raises the dimension-mismatch error there:
the run errors and the uploaded batches are exactly the batches before it —
no document of the offending batch is built or uploaded. -/
theorem claim_C6_dim_mismatch (embDim : Nat)
    (embed : List String → List (List Float)) (now : String)
    (parseIso : String → Option String) (bs : List (List PyObj)) (k : Nat)
    (hk : k < bs.length)
    (hpre : ∀ m, m < k → ∀ v ∈ embed (batch_inputs (bs.getD m [])),
      v.length = embDim)
    (hbad : ∃ v ∈ embed (batch_inputs (bs.getD k [])), v.length ≠ embDim) :
    run_batches embDim embed now parseIso bs =
      ((bs.take k).map
        (fun b => build_docs now parseIso b (embed (batch_inputs b))), true) :=
  run_batches_err embDim embed now parseIso k bs hk hpre hbad

theorem claim_C6_witness :
    run_batches 1 (fun _ => [([] : List Float)]) "" (fun _ => none)
      [[emptyObj]] = ([], true) :=
  claim_C6_dim_mismatch 1 (fun _ => [([] : List Float)]) "" (fun _ => none)
    [[emptyObj]] 0 (by decide) (fun m hm => absurd hm (by omega))
    ⟨[], List.mem_singleton.mpr rfl, by decide⟩

/-- C7: when no extraction rule's pattern matches the text/filename, every
metadata extractor returns its documented default and never raises:
`"Geral"` for `conhecimento` and `publico_alvo`, the empty string for
`norma_tipo`, `orgao_emissor`, `ano_letivo`, `fase_processo`, `programa`,
`data_publicacao`, `prazo_inicio` and `prazo_fim`, and the empty list for
`referencias_legais` (totality is built in: each extractor is a Lean
function). -/
theorem claim_C7_metadata_defaults (text fname : List Char)
    (h1 : conhecimento_hit fname = false) (h2 : norma_hit text fname = false)
    (h3 : orgao_hit text = false) (h4 : ano_hit text fname = false)
    (h5 : fase_hit text fname = false) (h6 : programa_hit text = false)
    (h7 : publico_hit text = false) (h8 : prazos_hit text = false)
    (h9 : datapub_hit text = false) (h10 : refs_hit text = false) :
    infer_conhecimento fname = "Geral" ∧
    guess_publico_alvo text = "Geral" ∧
    guess_norma_tipo text fname = "" ∧
    guess_orgao_emissor text = "" ∧
    guess_ano_letivo text fname = "" ∧
    guess_fase_processo text fname = "" ∧
    guess_programa text = "" ∧
    guess_data_publicacao text = "" ∧
    guess_prazos text = ("", "") ∧
    extract_referencias_legais text = [] :=
  ⟨conhecimento_default h1, publico_default h7, norma_default h2,
    orgao_default h3, ano_default h4, fase_default h5, programa_default h6,
    datapub_default h9, prazos_default h8, refs_default h10⟩

theorem claim_C7_witness :
    infer_conhecimento "qqq".data = "Geral" ∧
    guess_publico_alvo "zzz".data = "Geral" ∧
    guess_norma_tipo "zzz".data "qqq".data = "" ∧
    guess_orgao_emissor "zzz".data = "" ∧
    guess_ano_letivo "zzz".data "qqq".data = "" ∧
    guess_fase_processo "zzz".data "qqq".data = "" ∧
    guess_programa "zzz".data = "" ∧
    guess_data_publicacao "zzz".data = "" ∧
    guess_prazos "zzz".data = ("", "") ∧
    extract_referencias_legais "zzz".data = [] :=
  claim_C7_metadata_defaults "zzz".data "qqq".data (by decide) (by decide)
    (by decide) (by decide) (by decide) (by decide) (by decide) (by decide)
    (by decide) (by decide)

/-- C8: whenever the lower-cased `f"{fname}\n{text}"` contains
`"portaria conjunta"`, `guess_norma_tipo` returns `"Portaria Conjunta"` and
never the less specific `"Portaria"`: the compound rule is checked first. -/
theorem claim_C8_portaria_conjunta (text fname : List Char)
    (h : isSubstr "portaria conjunta".data
      (lowerStr (fname ++ '\n' :: text)) = true) :
    guess_norma_tipo text fname = "Portaria Conjunta" ∧
    guess_norma_tipo text fname ≠ "Portaria" := by
  have h1 : guess_norma_tipo text fname = "Portaria Conjunta" := by
    unfold guess_norma_tipo
    simp [h]
  exact ⟨h1, by rw [h1]; decide⟩

theorem claim_C8_witness :
    guess_norma_tipo "Portaria Conjunta n 1".data "x.pdf".data
      = "Portaria Conjunta" ∧
    guess_norma_tipo "Portaria Conjunta n 1".data "x.pdf".data ≠ "Portaria" :=
  claim_C8_portaria_conjunta "Portaria Conjunta n 1".data "x.pdf".data
    (by decide)

/-- C9: when the `"id"` key is absent or empty and `"id_original"` is a
non-empty string `s`, `build_docs` emits a document whose `id` is the
padding-stripped URL-safe base64 encoding of `s`, but whose `id_original`
field is the empty string: the stored `id_original` reads only the `"id"`
key. -/
theorem claim_C9_id_original (now : String) (parseIso : String → Option String)
    (obj : PyObj) (vec : List Float) (s : String)
    (hid : obj.id = none ∨ obj.id = some "")
    (hor : obj.id_original = some s) (hs : s ≠ "") :
    ∃ d, build_docs now parseIso [obj] [vec] = [d] ∧
      d.id = encode_id s ∧ d.id_original = "" := by
  refine ⟨build_doc now parseIso obj vec, rfl, ?_, ?_⟩
  · show encode_id (pyOr2 obj.id obj.id_original) = encode_id s
    congr 1
    unfold pyOr2 truthyS
    rcases hid with h | h <;> rw [h, hor] <;> simp [hs]
  · show pyOrD obj.id "" = ""
    unfold pyOrD truthyS
    rcases hid with h | h <;> rw [h] <;> simp

theorem claim_C9_witness :
    ∃ d, build_docs "" (fun _ => none)
        [{ emptyObj with id_original := some "kb.pdf#chunk1" }] [[]] = [d] ∧
      d.id = encode_id "kb.pdf#chunk1" ∧ d.id_original = "" :=
  claim_C9_id_original "" (fun _ => none)
    { emptyObj with id_original := some "kb.pdf#chunk1" } [] "kb.pdf#chunk1"
    (Or.inl rfl) rfl (by decide)

/-- C10: for every record list and every integer `batch_size` (zero and
negative included), the loop uses `B = max(1, batch_size)`; the batch slices
are non-empty, at most `B` long, and concatenate to exactly the record list;
and with a well-dimensioned provider the loop terminates without error,
uploading one built batch per slice in input order — every record embedded
and uploaded exactly once. -/
theorem claim_C10_batching (batchSize : Int) (objs : List PyObj) (embDim : Nat)
    (embed : List String → List (List Float)) (now : String)
    (parseIso : String → Option String)
    (hlen : ∀ xs, (embed xs).length = xs.length)
    (hdim : ∀ xs, ∀ v ∈ embed xs, v.length = embDim) :
    1 ≤ (max 1 batchSize).toNat ∧
    (slicesOf (max 1 batchSize).toNat objs).flatten = objs ∧
    (∀ s ∈ slicesOf (max 1 batchSize).toNat objs,
      s ≠ [] ∧ s.length ≤ (max 1 batchSize).toNat) ∧
    main_loop embDim batchSize embed now parseIso objs =
      ((slicesOf (max 1 batchSize).toNat objs).map
        (fun b => build_docs now parseIso b (embed (batch_inputs b))), false) ∧
    ((main_loop embDim batchSize embed now parseIso objs).1.map
      List.length).sum = objs.length := by
  have hB : 1 ≤ (max 1 batchSize).toNat := by
    have h1 : (1 : Int) ≤ max 1 batchSize := le_max_left _ _
    omega
  have hrun : main_loop embDim batchSize embed now parseIso objs =
      ((slicesOf (max 1 batchSize).toNat objs).map
        (fun b => build_docs now parseIso b (embed (batch_inputs b))), false) := by
    unfold main_loop
    exact run_batches_ok embDim embed now parseIso hdim _
  refine ⟨hB, slicesOf_flatten _ _, slicesOf_mem hB _, hrun, ?_⟩
  rw [hrun]
  simp only [List.map_map]
  have hmap : List.map (List.length ∘
        fun b => build_docs now parseIso b (embed (batch_inputs b)))
      (slicesOf (max 1 batchSize).toNat objs) =
      List.map List.length (slicesOf (max 1 batchSize).toNat objs) := by
    apply List.map_congr_left
    intro b _
    show (build_docs now parseIso b (embed (batch_inputs b))).length = b.length
    rw [build_docs_length, hlen]
    unfold batch_inputs
    rw [List.length_map]
    omega
  rw [hmap, ← List.length_flatten, slicesOf_flatten]

theorem claim_C10_witness :
    1 ≤ (max 1 (-3 : Int)).toNat ∧
    (slicesOf (max 1 (-3 : Int)).toNat [emptyObj, emptyObj]).flatten
      = [emptyObj, emptyObj] ∧
    (∀ s ∈ slicesOf (max 1 (-3 : Int)).toNat [emptyObj, emptyObj],
      s ≠ [] ∧ s.length ≤ (max 1 (-3 : Int)).toNat) ∧
    main_loop 0 (-3) (fun xs => xs.map (fun _ => [])) "" (fun _ => none)
      [emptyObj, emptyObj] =
      ((slicesOf (max 1 (-3 : Int)).toNat [emptyObj, emptyObj]).map
        (fun b => build_docs "" (fun _ => none) b
          ((fun xs => xs.map (fun _ => [])) (batch_inputs b))), false) ∧
    ((main_loop 0 (-3) (fun xs => xs.map (fun _ => [])) "" (fun _ => none)
      [emptyObj, emptyObj]).1.map List.length).sum = 2 :=
  claim_C10_batching (-3) [emptyObj, emptyObj] 0
    (fun xs => xs.map (fun _ => [])) "" (fun _ => none)
    (fun xs => List.length_map xs _)
    (fun xs v hv => by
      rw [List.mem_map] at hv
      obtain ⟨x, _, rfl⟩ := hv
      rfl)

end Ingestao
